import Mathlib

/-!
The Soong mutator pipeline (android/mutator.go)

A shallow embedding of the registration side (phase lists, registration
context, mutator records) and of the run-time side (the android mutator
contexts that wrap the blueprint contexts) of `android/mutator.go`.

Modelling conventions.

* A pointer to a module is an index into the list of `ModuleBase` values of
  the `World`.
* Go code that can panic returns a `Result`; the world reached when the panic
  is raised is returned next to it, so that "nothing was changed" can be stated.
* The blueprint library is external.  A blueprint context is a record holding
  what its getters return and, for each primitive that mutator.go forwards to,
  the function the library computes on the module heap.  Every call that
  mutator.go makes on such a primitive is appended to `World.calls`.
* User code (mutator functions, module hooks, transition mutators) is a
  parameter: a function on contexts and worlds.
-/

set_option autoImplicit false

namespace blueprint

/-- Address of a module object. -/
abbrev Ptr := Nat

/-- A value of the Go interface type `blueprint.Module`: nil, or a pointer
together with the one fact mutator.go asks of its dynamic type, namely whether
that type implements `android.Module` (the assertion `.(Module)`). -/
inductive Module where
  | nil
  | android (p : Ptr)
  | other (p : Ptr)
  deriving DecidableEq, Repr

/-- The calls that mutator.go forwards to a blueprint mutator context. -/
inductive Call where
  | CreateVariations (variations : List String)
  | CreateLocalVariations (variations : List String)
  | Rename (name : String)
  | AddReverseDependency (module : Module) (tag : String) (name : String)
  deriving DecidableEq, Repr

end blueprint

namespace android

open blueprint (Ptr)

/-- Outcome of a Go call: a normal return or a panic with its message. -/
inductive Result (α : Type) where
  | ok (a : α)
  | panic (msg : String)
  deriving DecidableEq, Repr

/-- Modelled from the spec: `bp2buildInfo` is declared outside mutator.go; its
five fields are the ones `createBazelTargetModule` fills, kept as plain
strings. -/
structure bp2buildInfo where
  Dir : String := ""
  BazelProps : String := ""
  CommonAttrs : String := ""
  ConstraintAttrs : String := ""
  Attrs : String := ""
  deriving DecidableEq, Repr

/-- Modelled from the spec: the common-properties block of a module (declared
in module.go, which is not among the sources), restricted to the fields that
mutator.go writes: `DebugName`, `DebugMutators`, `DebugVariations` and the
conversion-info list. -/
structure commonProperties where
  DebugName : String := ""
  DebugMutators : List String := []
  DebugVariations : List String := []
  Bp2buildInfo : List bp2buildInfo := []
  deriving DecidableEq, Repr

/-- Modelled from the spec: `ModuleBase` (module.go), reduced to its common
properties and to the answer of `Enabled()`. -/
structure ModuleBase where
  commonProperties : commonProperties := {}
  Enabled : Bool := true
  deriving DecidableEq, Repr

/-- The module heap: `heap[p]?` is the `ModuleBase` that pointer `p` addresses. -/
abbrev Heap := List ModuleBase

/-- The state a mutator runs in: the module heap and the log of calls that
were forwarded to the blueprint context. -/
structure World where
  modules : Heap := []
  calls : List blueprint.Call := []
  deriving DecidableEq, Repr

/-- A Go function body with side effects: from the world before the call to
the world after it and the outcome. -/
abbrev Action (α : Type) := World → World × Result α

/-- A value of the interface type `android.Module` that is not nil: the
address of its `ModuleBase` (what `base()` returns). -/
abbrev Module := Ptr

/-- The type assertion `m.(Module)` on a `blueprint.Module` (the `ok` form). -/
def asModule : blueprint.Module → Option Module
  | .android p => some p
  | _ => none

end android

namespace blueprint

open android (Heap World Action Result)

/-- The interface `blueprint.BaseModuleContext`, reduced to `Module()` and to
the getter `OtherModuleDir(m)`, the directory of a module. -/
structure BaseModuleContext where
  Module : Module
  OtherModuleDir : blueprint.Module → String := fun _ => ""

/-- The interface `blueprint.BottomUpMutatorContext`: the getters `Module()`
and `MutatorName()`, and for each primitive the function the library computes
on the module heap (new variants are allocated by the library). -/
structure BottomUpMutatorContext extends BaseModuleContext where
  MutatorName : String
  CreateVariationsImpl : List String → Heap → Heap × List blueprint.Module
  CreateLocalVariationsImpl : List String → Heap → Heap × List blueprint.Module
  RenameImpl : String → Heap → Heap

/-- The interface `blueprint.TopDownMutatorContext`. -/
structure TopDownMutatorContext extends BaseModuleContext where
  MutatorName : String
  RenameImpl : String → Heap → Heap

/-- The interface `blueprint.OutgoingTransitionContext`. -/
structure OutgoingTransitionContext where
  Module : Module
  DepTag : String

/-- The interface `blueprint.IncomingTransitionContext`. -/
structure IncomingTransitionContext where
  Module : Module
  Config : String

/-- A call of `ctx.CreateVariations(variations...)`: the call is logged and the
library's function is applied to the heap. -/
def BottomUpMutatorContext.CreateVariations (ctx : BottomUpMutatorContext)
    (variations : List String) (w : World) : World × List Module :=
  let r := ctx.CreateVariationsImpl variations w.modules
  ({ modules := r.1, calls := w.calls ++ [Call.CreateVariations variations] }, r.2)

/-- A call of `ctx.CreateLocalVariations(variations...)`. -/
def BottomUpMutatorContext.CreateLocalVariations (ctx : BottomUpMutatorContext)
    (variations : List String) (w : World) : World × List Module :=
  let r := ctx.CreateLocalVariationsImpl variations w.modules
  ({ modules := r.1, calls := w.calls ++ [Call.CreateLocalVariations variations] }, r.2)

/-- A call of `ctx.Rename(name)` on a bottom-up context: the call is logged and
the library's function is applied to the heap. -/
def BottomUpMutatorContext.Rename (ctx : BottomUpMutatorContext) (name : String)
    (w : World) : World :=
  { modules := ctx.RenameImpl name w.modules, calls := w.calls ++ [Call.Rename name] }

/-- A call of `ctx.Rename(name)` on a top-down context. -/
def TopDownMutatorContext.Rename (ctx : TopDownMutatorContext) (name : String)
    (w : World) : World :=
  { modules := ctx.RenameImpl name w.modules, calls := w.calls ++ [Call.Rename name] }

/-- A call of `ctx.AddReverseDependency(module, tag, name)`: blueprint collects
the reverse dependency until the end of the pass, so the call is only logged. -/
def BottomUpMutatorContext.AddReverseDependency (_ctx : BottomUpMutatorContext)
    (module : Module) (tag name : String) (w : World) : World :=
  { w with calls := w.calls ++ [Call.AddReverseDependency module tag name] }

/-- The function type `blueprint.BottomUpMutator`. -/
abbrev BottomUpMutator := BottomUpMutatorContext → Action Unit

/-- The function type `blueprint.TopDownMutator`. -/
abbrev TopDownMutator := TopDownMutatorContext → Action Unit

end blueprint

namespace android

/-- Modelled from the spec: `baseModuleContext` (module.go) is not among the
sources; it wraps the blueprint context and carries the conversion-mode flag
that mutator.go assigns. -/
structure baseModuleContext where
  bp : blueprint.BaseModuleContext
  bazelConversionMode : Bool := false

/-- Modelled from the spec: `baseModuleContext.Module()` (module.go) returns
the blueprint module converted to an android `Module`, nil when it is not one. -/
def baseModuleContext.Module (b : baseModuleContext) : Option Module :=
  asModule b.bp.Module

/-- Modelled from the spec: `a.base().baseModuleContextFactory(ctx)`
(module.go) builds a fresh `baseModuleContext` around `ctx`; every other field
has its zero value. -/
def baseModuleContextFactory (_a : Module) (ctx : blueprint.BaseModuleContext) :
    baseModuleContext :=
  { bp := ctx }

/-- See `type topDownMutatorContext struct`. -/
structure topDownMutatorContext where
  bp : blueprint.TopDownMutatorContext
  baseModuleContext : baseModuleContext

/-- See `type bottomUpMutatorContext struct`. -/
structure bottomUpMutatorContext where
  bp : blueprint.BottomUpMutatorContext
  baseModuleContext : baseModuleContext
  finalPhase : Bool

/-- The function type `TopDownMutator`. -/
abbrev TopDownMutator := topDownMutatorContext → Action Unit

/-- The function type `BottomUpMutator`. -/
abbrev BottomUpMutator := bottomUpMutatorContext → Action Unit

/-- See `bottomUpMutatorContextFactory`: the local `moduleContext` receives the
conversion-mode flag, and the returned context is built from a second call of
`baseModuleContextFactory`. -/
def bottomUpMutatorContextFactory (ctx : blueprint.BottomUpMutatorContext) (a : Module)
    (finalPhase bazelConversionMode : Bool) : bottomUpMutatorContext :=
  let moduleContext := baseModuleContextFactory a ctx.toBaseModuleContext
  let _moduleContext := { moduleContext with bazelConversionMode := bazelConversionMode }
  { bp := ctx
    baseModuleContext := baseModuleContextFactory a ctx.toBaseModuleContext
    finalPhase := finalPhase }

/-- The method `MutatorName` of the bottom-up context forwards to blueprint. -/
def bottomUpMutatorContext.MutatorName (b : bottomUpMutatorContext) : String :=
  b.bp.MutatorName

/-- The method `Module()` of the bottom-up context, promoted from the embedded
`baseModuleContext`. -/
def bottomUpMutatorContext.Module (b : bottomUpMutatorContext) : Option Module :=
  b.baseModuleContext.Module

/-- Appends `mutatorName` to `DebugMutators` and `variation` to
`DebugVariations`: the two `append` assignments in the loop bodies of
`CreateVariations` and `CreateLocalVariations`. -/
def ModuleBase.appendDebug (base : ModuleBase) (mutatorName variation : String) : ModuleBase :=
  let base1 : ModuleBase :=
    { base with commonProperties :=
        { base.commonProperties with
          DebugMutators := base.commonProperties.DebugMutators ++ [mutatorName] } }
  { base1 with commonProperties :=
      { base1.commonProperties with
        DebugVariations := base1.commonProperties.DebugVariations ++ [variation] } }

/-- The loop `for i := range variations` of `CreateVariations` and of
`CreateLocalVariations` (the two bodies are the same text), started at index
`i` with the variation names from `i` on.  `modules` is what blueprint
returned and `aModules` the slice being filled; a nil slot is `none`.  The
three panics are the out-of-range index `modules[i]`, the failed conversion
`modules[i].(Module)` and the dereference of a pointer that addresses no
module.  `aModules` is made with the length of `modules`, so the range check
on `modules[i]` is also the one on `aModules[i]`. -/
def variationsLoop (mutatorName : String) (modules : List blueprint.Module) :
    Nat → List String → Heap → List (Option Module) → Heap × Result (List (Option Module))
  | _, [], heap, aModules => (heap, Result.ok aModules)
  | i, v :: rest, heap, aModules =>
    match modules[i]? with
    | none => (heap, Result.panic "index out of range")
    | some m =>
      match asModule m with
      | none => (heap, Result.panic "interface conversion: blueprint.Module is not android.Module")
      | some a =>
        match heap[a]? with
        | none => (heap, Result.panic "invalid memory address or nil pointer dereference")
        | some base =>
          variationsLoop mutatorName modules (i + 1) rest
            (heap.set a (base.appendDebug mutatorName v)) (aModules.set i (some a))

/-- See `bottomUpMutatorContext.CreateVariations`. -/
def bottomUpMutatorContext.CreateVariations (b : bottomUpMutatorContext)
    (variations : List String) : Action (List (Option android.Module)) := fun w =>
  if b.finalPhase then
    (w, Result.panic "CreateVariations not allowed in FinalDepsMutators")
  else
    let r := b.bp.CreateVariations variations w
    let modules := r.2
    let aModules : List (Option android.Module) := List.replicate modules.length none
    let l := variationsLoop b.MutatorName modules 0 variations r.1.modules aModules
    ({ r.1 with modules := l.1 }, l.2)

/-- See `bottomUpMutatorContext.CreateLocalVariations`. -/
def bottomUpMutatorContext.CreateLocalVariations (b : bottomUpMutatorContext)
    (variations : List String) : Action (List (Option android.Module)) := fun w =>
  if b.finalPhase then
    (w, Result.panic "CreateLocalVariations not allowed in FinalDepsMutators")
  else
    let r := b.bp.CreateLocalVariations variations w
    let modules := r.2
    let aModules : List (Option android.Module) := List.replicate modules.length none
    let l := variationsLoop b.MutatorName modules 0 variations r.1.modules aModules
    ({ r.1 with modules := l.1 }, l.2)

/-- See `bottomUpMutatorContext.AddReverseDependency`. -/
def bottomUpMutatorContext.AddReverseDependency (b : bottomUpMutatorContext)
    (module : blueprint.Module) (tag name : String) : Action Unit := fun w =>
  (b.bp.AddReverseDependency module tag name w, Result.ok ())

/-- The two hooks of the `Module` interface that the built-in deps mutators
call.  They are methods of the module types, which live outside mutator.go, so
the method table is a parameter; the first argument is the receiver. -/
structure ModuleMethods where
  ComponentDepsMutator : Module → bottomUpMutatorContext → Action Unit
  DepsMutator : Module → bottomUpMutatorContext → Action Unit

/-- Modelled from the spec: `m.Enabled()` (module.go) reads the enabled bit of
the module that `m` addresses; there is no answer when `m` addresses nothing. -/
def Enabled (m : Module) (w : World) : Option Bool :=
  (w.modules[m]?).map ModuleBase.Enabled

/-- See `componentDepsMutator`.  Calling `Enabled()` on a nil module or on a
pointer that addresses no module panics. -/
def componentDepsMutator (methods : ModuleMethods) (ctx : bottomUpMutatorContext) :
    Action Unit := fun w =>
  match ctx.Module with
  | none => (w, Result.panic "invalid memory address or nil pointer dereference")
  | some m =>
    match Enabled m w with
    | none => (w, Result.panic "invalid memory address or nil pointer dereference")
    | some true => methods.ComponentDepsMutator m ctx w
    | some false => (w, Result.ok ())

/-- See `depsMutator`. -/
def depsMutator (methods : ModuleMethods) (ctx : bottomUpMutatorContext) :
    Action Unit := fun w =>
  match ctx.Module with
  | none => (w, Result.panic "invalid memory address or nil pointer dereference")
  | some m =>
    match Enabled m w with
    | none => (w, Result.panic "invalid memory address or nil pointer dereference")
    | some true => methods.DepsMutator m ctx w
    | some false => (w, Result.ok ())

/-- See `type outgoingTransitionContextImpl struct`. -/
structure outgoingTransitionContextImpl where
  bp : blueprint.OutgoingTransitionContext

/-- See `type incomingTransitionContextImpl struct`. -/
structure incomingTransitionContextImpl where
  bp : blueprint.IncomingTransitionContext

/-- The interface `TransitionMutator`: the four callbacks of the user.  The
first three "should not mutate the module", so they read the world and return
a value; `Mutate` is an action. -/
structure TransitionMutator where
  Split : baseModuleContext → World → List String
  OutgoingTransition : outgoingTransitionContextImpl → String → World → String
  IncomingTransition : incomingTransitionContextImpl → String → World → String
  Mutate : bottomUpMutatorContext → String → Action Unit

/-- See `type androidTransitionMutator struct`. -/
structure androidTransitionMutator where
  finalPhase : Bool
  bazelConversionMode : Bool
  mutator : TransitionMutator

/-- See `androidTransitionMutator.Split`. -/
def androidTransitionMutator.Split (a : androidTransitionMutator)
    (ctx : blueprint.BaseModuleContext) (w : World) : List String :=
  match asModule ctx.Module with
  | some m =>
    let moduleContext := baseModuleContextFactory m ctx
    let moduleContext := { moduleContext with bazelConversionMode := a.bazelConversionMode }
    a.mutator.Split moduleContext w
  | none => [""]

/-- See `androidTransitionMutator.OutgoingTransition`. -/
def androidTransitionMutator.OutgoingTransition (a : androidTransitionMutator)
    (ctx : blueprint.OutgoingTransitionContext) (sourceVariation : String) (w : World) : String :=
  match asModule ctx.Module with
  | some _ => a.mutator.OutgoingTransition { bp := ctx } sourceVariation w
  | none => ""

/-- See `androidTransitionMutator.IncomingTransition`. -/
def androidTransitionMutator.IncomingTransition (a : androidTransitionMutator)
    (ctx : blueprint.IncomingTransitionContext) (incomingVariation : String) (w : World) : String :=
  match asModule ctx.Module with
  | some _ => a.mutator.IncomingTransition { bp := ctx } incomingVariation w
  | none => ""

/-- See `androidTransitionMutator.Mutate`. -/
def androidTransitionMutator.Mutate (a : androidTransitionMutator)
    (ctx : blueprint.BottomUpMutatorContext) (variation : String) : Action Unit := fun w =>
  match asModule ctx.Module with
  | some am =>
    a.mutator.Mutate (bottomUpMutatorContextFactory ctx am a.finalPhase a.bazelConversionMode)
      variation w
  | none => (w, Result.ok ())

/-- Modelled from the spec: `type mutator struct` is declared in register.go,
which is not among the sources; the fields are the five that mutator.go reads
and writes.  A nil function field is `none`. -/
structure mutator where
  name : String
  bottomUpMutator : Option blueprint.BottomUpMutator := none
  topDownMutator : Option blueprint.TopDownMutator := none
  transitionMutator : Option androidTransitionMutator := none
  parallel : Bool := false

/-- Modelled from the spec: `sortableComponents` (register.go) as used by
mutator.go, a slice of mutator records. -/
abbrev sortableComponents := List mutator

/-- See `type registerMutatorsContext struct`. -/
structure registerMutatorsContext where
  mutators : sortableComponents := []
  finalPhase : Bool := false
  bazelConversionMode : Bool := false

/-- The interface `MutatorHandle`.  In Go it is the pointer to the record just
appended; here it is the position of that record in the context's list. -/
abbrev MutatorHandle := Nat

/-- See `mutator.Parallel`: sets the flag of the record. -/
def mutator.Parallel (m : mutator) : mutator :=
  { m with parallel := true }

/-- The call `h.Parallel()` on a handle `h` obtained from context `x`: the
record that `h` points to is updated in place. -/
def MutatorHandle.Parallel (h : MutatorHandle) (x : registerMutatorsContext) :
    registerMutatorsContext :=
  { x with mutators := x.mutators.modify mutator.Parallel h }

/-- See `registerMutatorsContext.mutatorName`. -/
def registerMutatorsContext.mutatorName (x : registerMutatorsContext) (name : String) : String :=
  if x.bazelConversionMode then name ++ "_bp2build" else name

/-- See `registerMutatorsContext.BottomUp`.  The closure `f` captures the
values of the two flags read at registration time. -/
def registerMutatorsContext.BottomUp (x : registerMutatorsContext) (name : String)
    (m : BottomUpMutator) : registerMutatorsContext × MutatorHandle :=
  let finalPhase := x.finalPhase
  let bazelConversionMode := x.bazelConversionMode
  let f : blueprint.BottomUpMutator := fun ctx w =>
    match asModule ctx.Module with
    | some a => m (bottomUpMutatorContextFactory ctx a finalPhase bazelConversionMode) w
    | none => (w, Result.ok ())
  let mutator : mutator := { name := x.mutatorName name, bottomUpMutator := some f }
  ({ x with mutators := x.mutators ++ [mutator] }, x.mutators.length)

/-- See `registerMutatorsContext.BottomUpBlueprint`: the name and the function
are stored as given (a nil function is `none`). -/
def registerMutatorsContext.BottomUpBlueprint (x : registerMutatorsContext) (name : String)
    (m : Option blueprint.BottomUpMutator) : registerMutatorsContext × MutatorHandle :=
  let mutator : mutator := { name := name, bottomUpMutator := m }
  ({ x with mutators := x.mutators ++ [mutator] }, x.mutators.length)

/-- See `registerMutatorsContext.Transition`; it returns no handle. -/
def registerMutatorsContext.Transition (x : registerMutatorsContext) (name : String)
    (m : TransitionMutator) : registerMutatorsContext :=
  let atm : androidTransitionMutator :=
    { finalPhase := x.finalPhase
      bazelConversionMode := x.bazelConversionMode
      mutator := m }
  let mutator : mutator := { name := name, transitionMutator := some atm }
  { x with mutators := x.mutators ++ [mutator] }

/-- See `registerMutatorsContext.TopDown`.  The closure reads
`x.bazelConversionMode`, a field that is never assigned after the context is
created. -/
def registerMutatorsContext.TopDown (x : registerMutatorsContext) (name : String)
    (m : TopDownMutator) : registerMutatorsContext × MutatorHandle :=
  let f : blueprint.TopDownMutator := fun ctx w =>
    match asModule ctx.Module with
    | some a =>
      let moduleContext := baseModuleContextFactory a ctx.toBaseModuleContext
      let moduleContext := { moduleContext with bazelConversionMode := x.bazelConversionMode }
      let actx : topDownMutatorContext := { bp := ctx, baseModuleContext := moduleContext }
      m actx w
    | none => (w, Result.ok ())
  let mutator : mutator := { name := x.mutatorName name, topDownMutator := some f }
  ({ x with mutators := x.mutators ++ [mutator] }, x.mutators.length)

/-- One method call that a registration callback makes on the
`RegisterMutatorsContext` it is given.  For the three methods that return a
handle, `parallel` tells whether the callback goes on to call `Parallel()` on
that handle. -/
inductive RegisterCall where
  | TopDown (name : String) (m : TopDownMutator) (parallel : Bool)
  | BottomUp (name : String) (m : BottomUpMutator) (parallel : Bool)
  | BottomUpBlueprint (name : String) (m : Option blueprint.BottomUpMutator) (parallel : Bool)
  | Transition (name : String) (m : TransitionMutator)

/-- The function type `RegisterMutatorFunc`.  The interface it receives has
the four registration methods and no getter, and a handle has `Parallel()`
only, so a callback is the sequence of calls it makes. -/
abbrev RegisterMutatorFunc := List RegisterCall

/-- Performs one call of a callback on the context `x`. -/
def RegisterCall.run (x : registerMutatorsContext) : RegisterCall → registerMutatorsContext
  | .TopDown name m parallel =>
    let r := x.TopDown name m
    if parallel then MutatorHandle.Parallel r.2 r.1 else r.1
  | .BottomUp name m parallel =>
    let r := x.BottomUp name m
    if parallel then MutatorHandle.Parallel r.2 r.1 else r.1
  | .BottomUpBlueprint name m parallel =>
    let r := x.BottomUpBlueprint name m
    if parallel then MutatorHandle.Parallel r.2 r.1 else r.1
  | .Transition name m => x.Transition name m

/-- The application `f(mctx)` of a callback to a registration context. -/
def RegisterMutatorFunc.run (f : RegisterMutatorFunc) (mctx : registerMutatorsContext) :
    registerMutatorsContext :=
  f.foldl RegisterCall.run mctx

/-- See `RegisterComponentsMutator`. -/
def RegisterComponentsMutator (methods : ModuleMethods) : RegisterMutatorFunc :=
  [RegisterCall.BottomUp "component-deps" (componentDepsMutator methods) true]

/-- See `registerDepsMutator`. -/
def registerDepsMutator (methods : ModuleMethods) : RegisterMutatorFunc :=
  [RegisterCall.BottomUp "deps" (depsMutator methods) true]

/-- The local closure `register` of `collateRegisteredMutators` and the loop
of `registerMutatorsForBazelConversion`: `for _, f := range funcs`. -/
def register (funcs : List RegisterMutatorFunc) (mctx : registerMutatorsContext) :
    registerMutatorsContext :=
  funcs.foldl (fun x f => f.run x) mctx

/-- See `collateRegisteredMutators`. -/
def collateRegisteredMutators (methods : ModuleMethods)
    (preArch preDeps postDeps finalDeps : List RegisterMutatorFunc) : sortableComponents :=
  let mctx : registerMutatorsContext := {}
  let mctx := register preArch mctx
  let mctx := register preDeps mctx
  let mctx := register [registerDepsMutator methods] mctx
  let mctx := register postDeps mctx
  let mctx := { mctx with finalPhase := true }
  let mctx := register finalDeps mctx
  mctx.mutators

end android

namespace blueprint

/-- The calls that `mutator.register` makes on the blueprint context and on
the handle blueprint returns; a handle is the position of the registration it
came from. -/
inductive RegistrationCall where
  | RegisterBottomUpMutator (name : String) (m : BottomUpMutator)
  | RegisterTopDownMutator (name : String) (m : TopDownMutator)
  | RegisterTransitionMutator (name : String) (m : android.androidTransitionMutator)
  | Parallel (handle : Nat)

end blueprint

namespace android

/-- The type `Context`, as far as registration is concerned: the calls made
on the blueprint context so far. -/
abbrev Context := List blueprint.RegistrationCall

/-- See `mutator.register`.  `handle` stays nil when a transition mutator, or
nothing, is registered, and `handle.Parallel()` on nil panics. -/
def mutator.register (mutator : mutator) (ctx : Context) : Context × Result Unit :=
  let r : Context × Option Nat :=
    match mutator.bottomUpMutator with
    | some f => (ctx ++ [blueprint.RegistrationCall.RegisterBottomUpMutator mutator.name f],
        some ctx.length)
    | none =>
      match mutator.topDownMutator with
      | some f => (ctx ++ [blueprint.RegistrationCall.RegisterTopDownMutator mutator.name f],
          some ctx.length)
      | none =>
        match mutator.transitionMutator with
        | some t => (ctx ++ [blueprint.RegistrationCall.RegisterTransitionMutator mutator.name t],
            none)
        | none => (ctx, none)
  if mutator.parallel then
    match r.2 with
    | some handle => (r.1 ++ [blueprint.RegistrationCall.Parallel handle], Result.ok ())
    | none => (r.1, Result.panic "invalid memory address or nil pointer dereference")
  else (r.1, Result.ok ())

/-- Modelled from the spec: `sortableComponents.registerAll` (register.go, not
among the sources) registers the components one after the other. -/
def registerAll : sortableComponents → Context → Context × Result Unit
  | [], ctx => (ctx, Result.ok ())
  | c :: rest, ctx =>
    match c.register ctx with
    | (ctx1, Result.ok _) => registerAll rest ctx1
    | (ctx1, Result.panic msg) => (ctx1, Result.panic msg)

/-- The registration callbacks that mutator.go names and other files of the
package define. -/
structure ExternalCallbacks where
  RegisterNamespaceMutator : RegisterMutatorFunc
  RegisterVisibilityRuleChecker : RegisterMutatorFunc
  RegisterLicensesPackageMapper : RegisterMutatorFunc
  RegisterDefaultsPreArchMutators : RegisterMutatorFunc
  RegisterPrebuiltsPreArchMutators : RegisterMutatorFunc
  RegisterLicensesPropertyGatherer : RegisterMutatorFunc
  RegisterVisibilityRuleGatherer : RegisterMutatorFunc
  registerPathDepsMutator : RegisterMutatorFunc
  RegisterPrebuiltsPostDepsMutators : RegisterMutatorFunc
  RegisterVisibilityRuleEnforcer : RegisterMutatorFunc
  RegisterLicensesDependencyChecker : RegisterMutatorFunc
  registerNeverallowMutator : RegisterMutatorFunc
  RegisterOverridePostDepsMutators : RegisterMutatorFunc
  registerBp2buildConversionMutator : RegisterMutatorFunc
  registerApiBp2buildConversionMutator : RegisterMutatorFunc

/-- See `registerMutatorsForBazelConversion`; the registration context it
builds is returned next to the blueprint context. -/
def registerMutatorsForBazelConversion (ext : ExternalCallbacks) (ctx : Context)
    (bp2buildMutators : List RegisterMutatorFunc) :
    registerMutatorsContext × Context × Result Unit :=
  let mctx : registerMutatorsContext := { bazelConversionMode := true }
  let allMutators :=
    [ext.RegisterNamespaceMutator, ext.RegisterDefaultsPreArchMutators,
      ext.RegisterPrebuiltsPreArchMutators] ++ bp2buildMutators
  let mctx := register allMutators mctx
  (mctx, registerAll mctx.mutators ctx)

/-- See `RegisterMutatorsForBazelConversion`. -/
def RegisterMutatorsForBazelConversion (ext : ExternalCallbacks) (ctx : Context)
    (preArchMutators : List RegisterMutatorFunc) :
    registerMutatorsContext × Context × Result Unit :=
  let bp2buildMutators := preArchMutators ++ [ext.registerBp2buildConversionMutator]
  registerMutatorsForBazelConversion ext ctx bp2buildMutators

/-- The method `Module()` of the top-down context, promoted from the embedded
`baseModuleContext`. -/
def topDownMutatorContext.Module (t : topDownMutatorContext) : Option Module :=
  t.baseModuleContext.Module

/-- See `topDownMutatorContext.MutatorName`. -/
def topDownMutatorContext.MutatorName (t : topDownMutatorContext) : String :=
  t.bp.MutatorName

/-- The assignment `commonProperties.DebugName = name` of the two `Rename`
methods. -/
def ModuleBase.setDebugName (base : ModuleBase) (name : String) : ModuleBase :=
  { base with commonProperties := { base.commonProperties with DebugName := name } }

/-- See `topDownMutatorContext.Rename`.  `t.Module().base()` on a nil module, or
on a pointer that addresses no module, panics. -/
def topDownMutatorContext.Rename (t : topDownMutatorContext) (name : String) :
    Action Unit := fun w =>
  let w1 := t.bp.Rename name w
  match t.Module with
  | none => (w1, Result.panic "invalid memory address or nil pointer dereference")
  | some m =>
    match w1.modules[m]? with
    | none => (w1, Result.panic "invalid memory address or nil pointer dereference")
    | some base => ({ w1 with modules := w1.modules.set m (base.setDebugName name) }, Result.ok ())

/-- See `bottomUpMutatorContext.Rename`. -/
def bottomUpMutatorContext.Rename (b : bottomUpMutatorContext) (name : String) :
    Action Unit := fun w =>
  let w1 := b.bp.Rename name w
  match b.Module with
  | none => (w1, Result.panic "invalid memory address or nil pointer dereference")
  | some m =>
    match w1.modules[m]? with
    | none => (w1, Result.panic "invalid memory address or nil pointer dereference")
    | some base => ({ w1 with modules := w1.modules.set m (base.setDebugName name) }, Result.ok ())

end android

namespace bazel

/-- Modelled from the spec: `bazel.BoolAttribute` is declared in another
package; only its empty value `BoolAttribute{}` matters here, which is the
default of this record. -/
structure BoolAttribute where
  Value : Option Bool := none
  ConfigurableValues : List (String × Bool) := []
  deriving DecidableEq, Repr

end bazel

namespace android

/-- Modelled from the spec: `baseModuleContext.OtherModuleDir(m)` (module.go)
forwards to the blueprint context. -/
def topDownMutatorContext.OtherModuleDir (t : topDownMutatorContext) (m : android.Module) :
    String :=
  t.baseModuleContext.bp.OtherModuleDir (blueprint.Module.android m)

/-- The method `fillCommonBp2BuildModuleAttrs` of `CommonAttributes` is defined
in another file and is a parameter.  It is called on the local variable
`commonAttrs` with the context `t`; Go passes the address of that variable
when the receiver is a pointer, so the helper is an action on the world that
returns the value it leaves in the receiver next to its result, the constraint
attributes. -/
abbrev FillCommonBp2BuildModuleAttrs :=
  String → topDownMutatorContext → bazel.BoolAttribute → Action (String × String)

/-- Modelled from the spec: `ModuleBase.addBp2buildInfo` (module.go) records
the conversion descriptor on the module by appending it to the module's
conversion-info list. -/
def ModuleBase.addBp2buildInfo (base : ModuleBase) (info : bp2buildInfo) : ModuleBase :=
  { base with commonProperties :=
      { base.commonProperties with Bp2buildInfo := base.commonProperties.Bp2buildInfo ++ [info] } }

/-- See `topDownMutatorContext.createBazelTargetModule`.  The helper runs first,
on `commonAttrs`; the descriptor is built afterwards, from `commonAttrs` as
the helper left it, and is added to the current module in the world the helper
left.  A panic of the helper ends the call. -/
def topDownMutatorContext.createBazelTargetModule (fill : FillCommonBp2BuildModuleAttrs)
    (t : topDownMutatorContext) (bazelProps commonAttrs attrs : String)
    (enabledProperty : bazel.BoolAttribute) : Action Unit := fun w =>
  match fill commonAttrs t enabledProperty w with
  | (w1, Result.panic msg) => (w1, Result.panic msg)
  | (w1, Result.ok (commonAttrs, constraintAttributes)) =>
    match t.Module with
    | none => (w1, Result.panic "invalid memory address or nil pointer dereference")
    | some mod =>
      let info : bp2buildInfo :=
        { Dir := t.OtherModuleDir mod
          BazelProps := bazelProps
          CommonAttrs := commonAttrs
          ConstraintAttrs := constraintAttributes
          Attrs := attrs }
      match w1.modules[mod]? with
      | none => (w1, Result.panic "invalid memory address or nil pointer dereference")
      | some base =>
        ({ w1 with modules := w1.modules.set mod (base.addBp2buildInfo info) }, Result.ok ())

/-- See `topDownMutatorContext.CreateBazelTargetModule`. -/
def topDownMutatorContext.CreateBazelTargetModule (fill : FillCommonBp2BuildModuleAttrs)
    (t : topDownMutatorContext) (bazelProps commonAttrs attrs : String) : Action Unit :=
  t.createBazelTargetModule fill bazelProps commonAttrs attrs {}

/-- See `topDownMutatorContext.CreateBazelTargetModuleWithRestrictions`. -/
def topDownMutatorContext.CreateBazelTargetModuleWithRestrictions
    (fill : FillCommonBp2BuildModuleAttrs) (t : topDownMutatorContext)
    (bazelProps commonAttrs attrs : String) (enabledProperty : bazel.BoolAttribute) :
    Action Unit :=
  t.createBazelTargetModule fill bazelProps commonAttrs attrs enabledProperty

/-- The three mutator functions that `registerArchMutator` names and other
files of the package define. -/
structure ArchMutators where
  osMutator : blueprint.BottomUpMutator
  imageMutator : BottomUpMutator
  archMutator : blueprint.BottomUpMutator

/-- See `registerArchMutator`. -/
def registerArchMutator (arch : ArchMutators) : RegisterMutatorFunc :=
  [RegisterCall.BottomUpBlueprint "os" (some arch.osMutator) true,
    RegisterCall.BottomUp "image" arch.imageMutator true,
    RegisterCall.BottomUpBlueprint "arch" (some arch.archMutator) true]

/-- The package-level variables `preArch`, `preDeps`, `postDeps`, `finalDeps`
and `bp2buildPreArchMutators`. -/
structure PhaseLists where
  preArch : List RegisterMutatorFunc
  preDeps : List RegisterMutatorFunc
  postDeps : List RegisterMutatorFunc
  finalDeps : List RegisterMutatorFunc
  bp2buildPreArchMutators : List RegisterMutatorFunc

/-- The initial values of the five package-level variables. -/
def initialPhaseLists (ext : ExternalCallbacks) (arch : ArchMutators) (methods : ModuleMethods) :
    PhaseLists :=
  { preArch :=
      [ext.RegisterNamespaceMutator, ext.RegisterVisibilityRuleChecker,
        ext.RegisterLicensesPackageMapper, ext.RegisterDefaultsPreArchMutators,
        RegisterComponentsMutator methods, ext.RegisterPrebuiltsPreArchMutators,
        ext.RegisterLicensesPropertyGatherer, ext.RegisterVisibilityRuleGatherer]
    preDeps := [registerArchMutator arch]
    postDeps :=
      [ext.registerPathDepsMutator, ext.RegisterPrebuiltsPostDepsMutators,
        ext.RegisterVisibilityRuleEnforcer, ext.RegisterLicensesDependencyChecker,
        ext.registerNeverallowMutator, ext.RegisterOverridePostDepsMutators]
    finalDeps := []
    bp2buildPreArchMutators := [] }

/-- See `PreArchMutators`. -/
def PreArchMutators (f : RegisterMutatorFunc) (g : PhaseLists) : PhaseLists :=
  { g with preArch := g.preArch ++ [f] }

/-- See `PreDepsMutators`. -/
def PreDepsMutators (f : RegisterMutatorFunc) (g : PhaseLists) : PhaseLists :=
  { g with preDeps := g.preDeps ++ [f] }

/-- See `PostDepsMutators`. -/
def PostDepsMutators (f : RegisterMutatorFunc) (g : PhaseLists) : PhaseLists :=
  { g with postDeps := g.postDeps ++ [f] }

/-- See `FinalDepsMutators`. -/
def FinalDepsMutators (f : RegisterMutatorFunc) (g : PhaseLists) : PhaseLists :=
  { g with finalDeps := g.finalDeps ++ [f] }

/-- See `PreArchBp2BuildMutators`. -/
def PreArchBp2BuildMutators (f : RegisterMutatorFunc) (g : PhaseLists) : PhaseLists :=
  { g with bp2buildPreArchMutators := g.bp2buildPreArchMutators ++ [f] }

/-- See `collateGloballyRegisteredMutators`. -/
def collateGloballyRegisteredMutators (methods : ModuleMethods) (g : PhaseLists) :
    sortableComponents :=
  collateRegisteredMutators methods g.preArch g.preDeps g.postDeps g.finalDeps

/-- One call, made by some package while the program starts, of one of the
four functions that add a callback to a phase. -/
inductive PhaseRegistration where
  | PreArchMutators (f : RegisterMutatorFunc)
  | PreDepsMutators (f : RegisterMutatorFunc)
  | PostDepsMutators (f : RegisterMutatorFunc)
  | FinalDepsMutators (f : RegisterMutatorFunc)

/-- Performs one such call on the package-level variables. -/
def PhaseRegistration.run (g : PhaseLists) : PhaseRegistration → PhaseLists
  | .PreArchMutators f => android.PreArchMutators f g
  | .PreDepsMutators f => android.PreDepsMutators f g
  | .PostDepsMutators f => android.PostDepsMutators f g
  | .FinalDepsMutators f => android.FinalDepsMutators f g

/-- The callbacks that a sequence of such calls passed to `PreArchMutators`. -/
def PhaseRegistration.preArchOf : List PhaseRegistration → List RegisterMutatorFunc
  | [] => []
  | .PreArchMutators f :: rest => f :: preArchOf rest
  | _ :: rest => preArchOf rest

/-- The callbacks that a sequence of such calls passed to `PreDepsMutators`. -/
def PhaseRegistration.preDepsOf : List PhaseRegistration → List RegisterMutatorFunc
  | [] => []
  | .PreDepsMutators f :: rest => f :: preDepsOf rest
  | _ :: rest => preDepsOf rest

/-- The callbacks that a sequence of such calls passed to `PostDepsMutators`. -/
def PhaseRegistration.postDepsOf : List PhaseRegistration → List RegisterMutatorFunc
  | [] => []
  | .PostDepsMutators f :: rest => f :: postDepsOf rest
  | _ :: rest => postDepsOf rest

/-- The callbacks that a sequence of such calls passed to `FinalDepsMutators`. -/
def PhaseRegistration.finalDepsOf : List PhaseRegistration → List RegisterMutatorFunc
  | [] => []
  | .FinalDepsMutators f :: rest => f :: finalDepsOf rest
  | _ :: rest => finalDepsOf rest

end android

namespace android

/-- The mutators that one call appends: what is found after the call ran on a
context that has the given flags and no mutator yet. -/
def RegisterCall.appended (finalPhase bazelConversionMode : Bool) (c : RegisterCall) :
    sortableComponents :=
  (RegisterCall.run
    { mutators := [], finalPhase := finalPhase, bazelConversionMode := bazelConversionMode }
    c).mutators

/-- The mutators that a callback appends: what is found after the callback ran
on a context that has the given flags and no mutator yet. -/
def RegisterMutatorFunc.appended (finalPhase bazelConversionMode : Bool)
    (f : RegisterMutatorFunc) : sortableComponents :=
  (RegisterMutatorFunc.run f
    { mutators := [], finalPhase := finalPhase, bazelConversionMode := bazelConversionMode }
    ).mutators

/-- What the theorems look at in a mutator record, apart from the functions
themselves: the name, the parallel flag and which function fields are set. -/
def mutator.shape (m : mutator) : String × Bool × Bool × Bool × Bool :=
  (m.name, m.parallel, m.bottomUpMutator.isSome, m.topDownMutator.isSome,
    m.transitionMutator.isSome)

/-! ## Example data

Concrete contexts, worlds and user functions at which the theorems below are
evaluated. -/

/-- A blueprint bottom-up context for the android module at address `p`: the
two variant-creation primitives allocate one copy of that module per name at
the end of the heap and return the copies in the order of the names. -/
def exampleBp (p : blueprint.Ptr) (mutatorName : String) : blueprint.BottomUpMutatorContext :=
  { Module := blueprint.Module.android p
    MutatorName := mutatorName
    CreateVariationsImpl := fun vs heap =>
      (heap ++ vs.map (fun _ => heap.getD p {}),
        (List.range vs.length).map (fun i => blueprint.Module.android (heap.length + i)))
    CreateLocalVariationsImpl := fun vs heap =>
      (heap ++ vs.map (fun _ => heap.getD p {}),
        (List.range vs.length).map (fun i => blueprint.Module.android (heap.length + i)))
    RenameImpl := fun _ heap => heap }

/-- A world with one module, `libfoo`, that the "link" mutator already split
into its "shared" variant. -/
def exampleWorld : World :=
  { modules :=
      [{ commonProperties :=
          { DebugName := "libfoo", DebugMutators := ["link"], DebugVariations := ["shared"] } }]
    calls := [] }

/-- The android bottom-up context that wraps `exampleBp 0 "version"`. -/
def exampleCtx (finalPhase : Bool) : bottomUpMutatorContext :=
  bottomUpMutatorContextFactory (exampleBp 0 "version") 0 finalPhase false

/-- A user bottom-up mutator that splits the module into the three stubs
versions of the test `TestStubsVersions`. -/
def stubsVersionsMutator : BottomUpMutator := fun ctx w =>
  match ctx.CreateVariations ["29", "R", "current"] w with
  | (w1, Result.ok _) => (w1, Result.ok ())
  | (w1, Result.panic msg) => (w1, Result.panic msg)

/-- A raw blueprint mutator that splits the module into the same three
variants by calling the blueprint context directly. -/
def rawStubsVersionsMutator : blueprint.BottomUpMutator := fun ctx w =>
  ((ctx.CreateVariations ["29", "R", "current"] w).1, Result.ok ())

/-- Module hooks that do nothing. -/
def exampleMethods : ModuleMethods :=
  { ComponentDepsMutator := fun _ _ w => (w, Result.ok ())
    DepsMutator := fun _ _ w => (w, Result.ok ()) }

/-- Module hooks for the examples: each hook adds one reverse dependency from
"libbar" to the module it is called on. -/
def exampleHooks : ModuleMethods :=
  { ComponentDepsMutator := fun m ctx =>
      ctx.AddReverseDependency (blueprint.Module.android m) "component" "libbar"
    DepsMutator := fun m ctx =>
      ctx.AddReverseDependency (blueprint.Module.android m) "shared" "libbar" }

/-- The world of `exampleWorld` with `libfoo` disabled. -/
def disabledWorld : World :=
  { modules :=
      [{ commonProperties :=
          { DebugName := "libfoo", DebugMutators := ["link"], DebugVariations := ["shared"] }
         Enabled := false }]
    calls := [] }

/-- A blueprint top-down context for the android module at address `p`, which
lives in directory "libs/foo". -/
def exampleTopDownBp (p : blueprint.Ptr) (mutatorName : String) :
    blueprint.TopDownMutatorContext :=
  { Module := blueprint.Module.android p
    OtherModuleDir := fun _ => "libs/foo"
    MutatorName := mutatorName
    RenameImpl := fun _ heap => heap }

/-- A user top-down mutator that renames the module. -/
def renameMutator : TopDownMutator := fun ctx => ctx.Rename "libfoo_renamed"

/-- The transition mutator of scenario S2: a module in variation "d1" asks for
its dependencies in "d2", and a dependency accepts what it is asked for. -/
def exampleTransition : TransitionMutator :=
  { Split := fun _ _ => ["d1", "d2"]
    OutgoingTransition := fun _ v _ => if v = "d1" then "d2" else v
    IncomingTransition := fun _ v _ => v
    Mutate := fun _ _ w => (w, Result.ok ()) }

/-- The android top-down context around `exampleTopDownBp 0 "bp2build"`, in
conversion mode. -/
def exampleTopDownCtx : topDownMutatorContext :=
  { bp := exampleTopDownBp 0 "bp2build"
    baseModuleContext :=
      { bp := (exampleTopDownBp 0 "bp2build").toBaseModuleContext, bazelConversionMode := true } }

/-- A helper for the examples that adds the required module "libbar" to the
data of the common attributes it is called on and answers with fixed
constraint attributes. -/
def appendingFill : FillCommonBp2BuildModuleAttrs := fun commonAttrs _ _ w =>
  (w, Result.ok (commonAttrs ++ ", data = libbar", "target_compatible_with = android"))

/-- A user bottom-up mutator that reports the conversion-mode flag of the
context it receives, as the new name of the module. -/
def conversionProbe : BottomUpMutator := fun ctx =>
  ctx.Rename (if ctx.baseModuleContext.bazelConversionMode then "conversion" else "normal")

/-- A user top-down mutator that reports the conversion-mode flag of the
context it receives, as the new name of the module. -/
def conversionProbeTopDown : TopDownMutator := fun ctx =>
  ctx.Rename (if ctx.baseModuleContext.bazelConversionMode then "conversion" else "normal")

/-- A user transition mutator whose `Split` and `Mutate` report the
conversion-mode flag of the context they receive. -/
def conversionProbeTransition : TransitionMutator :=
  { Split := fun ctx _ => [if ctx.bazelConversionMode then "conversion" else "normal"]
    OutgoingTransition := fun _ v _ => v
    IncomingTransition := fun _ v _ => v
    Mutate := fun ctx _ => conversionProbe ctx }

/-- A blueprint bottom-up context like `exampleBp` whose variant-creation
primitives return one module less than there are names. -/
def shortBp (p : blueprint.Ptr) (mutatorName : String) : blueprint.BottomUpMutatorContext :=
  { Module := blueprint.Module.android p
    MutatorName := mutatorName
    CreateVariationsImpl := fun vs heap =>
      (heap ++ vs.dropLast.map (fun _ => heap.getD p {}),
        (List.range vs.dropLast.length).map
          (fun i => blueprint.Module.android (heap.length + i)))
    CreateLocalVariationsImpl := fun vs heap =>
      (heap ++ vs.dropLast.map (fun _ => heap.getD p {}),
        (List.range vs.dropLast.length).map
          (fun i => blueprint.Module.android (heap.length + i)))
    RenameImpl := fun _ heap => heap }

/-! ## Registration: general lemmas -/

theorem modify_length_append {α : Type} (f : α → α) (l : List α) (a : α) :
    List.modify f l.length (l ++ [a]) = l ++ [f a] := by
  induction l with
  | nil => rfl
  | cons b l ih => simp [List.modify_succ_cons, ih]

theorem RegisterCall.run_flags (x : registerMutatorsContext) (c : RegisterCall) :
    (c.run x).finalPhase = x.finalPhase ∧
      (c.run x).bazelConversionMode = x.bazelConversionMode := by
  cases c <;>
    simp only [RegisterCall.run, registerMutatorsContext.TopDown,
      registerMutatorsContext.BottomUp, registerMutatorsContext.BottomUpBlueprint,
      registerMutatorsContext.Transition, MutatorHandle.Parallel] <;>
    first
      | (split <;> simp)
      | simp

theorem RegisterCall.run_mutators (x : registerMutatorsContext) (c : RegisterCall) :
    (c.run x).mutators =
      x.mutators ++ c.appended x.finalPhase x.bazelConversionMode := by
  cases c <;>
    simp only [RegisterCall.run, RegisterCall.appended, registerMutatorsContext.TopDown,
      registerMutatorsContext.BottomUp, registerMutatorsContext.BottomUpBlueprint,
      registerMutatorsContext.Transition, MutatorHandle.Parallel,
      registerMutatorsContext.mutatorName] <;>
    first
      | rfl
      | (split
         · rw [modify_length_append]; rfl
         · rfl)

theorem RegisterMutatorFunc.run_spec (f : RegisterMutatorFunc) (x : registerMutatorsContext) :
    (RegisterMutatorFunc.run f x).finalPhase = x.finalPhase ∧
      (RegisterMutatorFunc.run f x).bazelConversionMode = x.bazelConversionMode ∧
      (RegisterMutatorFunc.run f x).mutators =
        x.mutators ++ f.flatMap (RegisterCall.appended x.finalPhase x.bazelConversionMode) := by
  induction f generalizing x with
  | nil => simp [RegisterMutatorFunc.run]
  | cons c f ih =>
    have h := ih (c.run x)
    have hf := RegisterCall.run_flags x c
    simp only [RegisterMutatorFunc.run, List.foldl_cons] at h ⊢
    rw [h.1, h.2.1, h.2.2, hf.1, hf.2, RegisterCall.run_mutators, List.flatMap_cons,
      List.append_assoc]
    exact ⟨rfl, rfl, rfl⟩

theorem RegisterMutatorFunc.appended_eq (finalPhase bazelConversionMode : Bool)
    (f : RegisterMutatorFunc) :
    RegisterMutatorFunc.appended finalPhase bazelConversionMode f =
      f.flatMap (RegisterCall.appended finalPhase bazelConversionMode) := by
  have h := (RegisterMutatorFunc.run_spec f
    { mutators := [], finalPhase := finalPhase, bazelConversionMode := bazelConversionMode }).2.2
  simpa [RegisterMutatorFunc.appended] using h

theorem register_spec (funcs : List RegisterMutatorFunc) (x : registerMutatorsContext) :
    (register funcs x).finalPhase = x.finalPhase ∧
      (register funcs x).bazelConversionMode = x.bazelConversionMode ∧
      (register funcs x).mutators =
        x.mutators ++
          funcs.flatMap (RegisterMutatorFunc.appended x.finalPhase x.bazelConversionMode) := by
  induction funcs generalizing x with
  | nil => simp [register]
  | cons f funcs ih =>
    have h := ih (RegisterMutatorFunc.run f x)
    have hf := RegisterMutatorFunc.run_spec f x
    simp only [register, List.foldl_cons] at h ⊢
    rw [h.1, h.2.1, h.2.2, hf.1, hf.2.1, hf.2.2, List.flatMap_cons, List.append_assoc,
      RegisterMutatorFunc.appended_eq]
    exact ⟨rfl, rfl, rfl⟩

theorem collateRegisteredMutators_eq (methods : ModuleMethods)
    (preArch preDeps postDeps finalDeps : List RegisterMutatorFunc) :
    collateRegisteredMutators methods preArch preDeps postDeps finalDeps =
      preArch.flatMap (RegisterMutatorFunc.appended false false) ++
        preDeps.flatMap (RegisterMutatorFunc.appended false false) ++
        RegisterMutatorFunc.appended false false (registerDepsMutator methods) ++
        postDeps.flatMap (RegisterMutatorFunc.appended false false) ++
        finalDeps.flatMap (RegisterMutatorFunc.appended true false) := by
  simp only [collateRegisteredMutators]
  have h1 := register_spec preArch {}
  have h2 := register_spec preDeps (register preArch {})
  have h3 := register_spec [registerDepsMutator methods] (register preDeps (register preArch {}))
  have h4 := register_spec postDeps
    (register [registerDepsMutator methods] (register preDeps (register preArch {})))
  have h5 := register_spec finalDeps
    { register postDeps
        (register [registerDepsMutator methods] (register preDeps (register preArch {})))
      with finalPhase := true }
  rw [h5.2.2]
  simp only [h4.1, h4.2.1, h4.2.2, h3.1, h3.2.1, h3.2.2, h2.1, h2.2.1, h2.2.2, h1.1, h1.2.1,
    h1.2.2, List.flatMap_cons, List.flatMap_nil, List.append_nil, List.nil_append,
    List.append_assoc]

theorem mem_collate_of_finalDeps (methods : ModuleMethods)
    (preArch preDeps postDeps finalDeps : List RegisterMutatorFunc)
    (cb : RegisterMutatorFunc) (hcb : cb ∈ finalDeps) (c : RegisterCall) (hc : c ∈ cb)
    (r : mutator) (hr : r ∈ RegisterCall.appended true false c) :
    r ∈ collateRegisteredMutators methods preArch preDeps postDeps finalDeps := by
  rw [collateRegisteredMutators_eq]
  apply List.mem_append_right
  rw [List.mem_flatMap]
  refine ⟨cb, hcb, ?_⟩
  rw [RegisterMutatorFunc.appended_eq, List.mem_flatMap]
  exact ⟨c, hc, hr⟩

theorem mem_collate_of_earlier (methods : ModuleMethods)
    (preArch preDeps postDeps finalDeps : List RegisterMutatorFunc)
    (cb : RegisterMutatorFunc)
    (hcb : cb ∈ preArch ++ preDeps ++ [registerDepsMutator methods] ++ postDeps)
    (c : RegisterCall) (hc : c ∈ cb)
    (r : mutator) (hr : r ∈ RegisterCall.appended false false c) :
    r ∈ collateRegisteredMutators methods preArch preDeps postDeps finalDeps := by
  rw [collateRegisteredMutators_eq]
  apply List.mem_append_left
  have hmem : r ∈ (preArch ++ preDeps ++ [registerDepsMutator methods] ++ postDeps).flatMap
      (RegisterMutatorFunc.appended false false) := by
    rw [List.mem_flatMap]
    refine ⟨cb, hcb, ?_⟩
    rw [RegisterMutatorFunc.appended_eq, List.mem_flatMap]
    exact ⟨c, hc, hr⟩
  simpa [List.flatMap_append] using hmem

theorem finalPhase_guard (b : bottomUpMutatorContext) (hfinal : b.finalPhase = true)
    (variations : List String) (w : World) :
    b.CreateVariations variations w =
        (w, Result.panic "CreateVariations not allowed in FinalDepsMutators") ∧
      b.CreateLocalVariations variations w =
        (w, Result.panic "CreateLocalVariations not allowed in FinalDepsMutators") := by
  simp [bottomUpMutatorContext.CreateVariations, bottomUpMutatorContext.CreateLocalVariations,
    hfinal]

theorem appended_BottomUp (finalPhase bazelConversionMode : Bool) (name : String)
    (m : BottomUpMutator) (parallel : Bool) :
    ∃ r f, RegisterCall.appended finalPhase bazelConversionMode
          (RegisterCall.BottomUp name m parallel) = [r] ∧
      r.name = (if bazelConversionMode then name ++ "_bp2build" else name) ∧
      r.parallel = parallel ∧
      r.bottomUpMutator = some f ∧ r.topDownMutator = none ∧ r.transitionMutator = none ∧
      (∀ ctx a w, asModule ctx.Module = some a →
        f ctx w = m (bottomUpMutatorContextFactory ctx a finalPhase bazelConversionMode) w) ∧
      (∀ ctx w, asModule ctx.Module = none → f ctx w = (w, Result.ok ())) := by
  cases parallel
  · refine ⟨_, _, rfl, rfl, rfl, rfl, rfl, rfl, ?_, ?_⟩
    · intro ctx a w ha
      simp only [ha]
    · intro ctx w ha
      simp only [ha]
  · refine ⟨_, _, rfl, rfl, rfl, rfl, rfl, rfl, ?_, ?_⟩
    · intro ctx a w ha
      simp only [ha]
    · intro ctx w ha
      simp only [ha]

theorem appended_Transition (finalPhase bazelConversionMode : Bool) (name : String)
    (m : TransitionMutator) :
    RegisterCall.appended finalPhase bazelConversionMode (RegisterCall.Transition name m) =
      [{ name := name
         transitionMutator := some
          { finalPhase := finalPhase, bazelConversionMode := bazelConversionMode, mutator := m } }] :=
  rfl

theorem RegisterCall.appended_length (finalPhase bazelConversionMode : Bool) (c : RegisterCall) :
    (RegisterCall.appended finalPhase bazelConversionMode c).length = 1 := by
  cases c with
  | TopDown name m parallel => cases parallel <;> rfl
  | BottomUp name m parallel => cases parallel <;> rfl
  | BottomUpBlueprint name m parallel => cases parallel <;> rfl
  | Transition name m => rfl

theorem appended_TopDown (finalPhase bazelConversionMode : Bool) (name : String)
    (m : TopDownMutator) (parallel : Bool) :
    ∃ r f, RegisterCall.appended finalPhase bazelConversionMode
          (RegisterCall.TopDown name m parallel) = [r] ∧
      r.name = (if bazelConversionMode then name ++ "_bp2build" else name) ∧
      r.parallel = parallel ∧
      r.topDownMutator = some f ∧ r.bottomUpMutator = none ∧ r.transitionMutator = none ∧
      (∀ ctx a w, asModule ctx.Module = some a →
        f ctx w =
          m { bp := ctx
              baseModuleContext :=
                { bp := ctx.toBaseModuleContext, bazelConversionMode := bazelConversionMode } }
            w) ∧
      (∀ ctx w, asModule ctx.Module = none → f ctx w = (w, Result.ok ())) := by
  cases parallel
  · refine ⟨_, _, rfl, rfl, rfl, rfl, rfl, rfl, ?_, ?_⟩
    · intro ctx a w ha
      simp only [ha]
      rfl
    · intro ctx w ha
      simp only [ha]
  · refine ⟨_, _, rfl, rfl, rfl, rfl, rfl, rfl, ?_, ?_⟩
    · intro ctx a w ha
      simp only [ha]
      rfl
    · intro ctx w ha
      simp only [ha]

theorem PhaseRegistration.foldl_run (regs : List PhaseRegistration) (g : PhaseLists) :
    (regs.foldl PhaseRegistration.run g).preArch =
        g.preArch ++ PhaseRegistration.preArchOf regs ∧
      (regs.foldl PhaseRegistration.run g).preDeps =
        g.preDeps ++ PhaseRegistration.preDepsOf regs ∧
      (regs.foldl PhaseRegistration.run g).postDeps =
        g.postDeps ++ PhaseRegistration.postDepsOf regs ∧
      (regs.foldl PhaseRegistration.run g).finalDeps =
        g.finalDeps ++ PhaseRegistration.finalDepsOf regs := by
  induction regs generalizing g with
  | nil => simp [PhaseRegistration.preArchOf, PhaseRegistration.preDepsOf,
      PhaseRegistration.postDepsOf, PhaseRegistration.finalDepsOf]
  | cons r regs ih =>
    have h := ih (PhaseRegistration.run g r)
    rw [List.foldl_cons, h.1, h.2.1, h.2.2.1, h.2.2.2]
    cases r <;>
      simp [PhaseRegistration.run, PhaseRegistration.preArchOf, PhaseRegistration.preDepsOf,
        PhaseRegistration.postDepsOf, PhaseRegistration.finalDepsOf, android.PreArchMutators,
        android.PreDepsMutators, android.PostDepsMutators, android.FinalDepsMutators]

/-! ## The loop of CreateVariations: general lemmas -/

theorem variationsLoop_step (mutatorName : String) (modules : List blueprint.Module)
    (i : Nat) (v : String) (rest : List String) (heap : Heap) (aModules : List (Option Module))
    (p : blueprint.Ptr) (base : ModuleBase)
    (hm : modules[i]? = some (blueprint.Module.android p)) (hb : heap[p]? = some base) :
    variationsLoop mutatorName modules i (v :: rest) heap aModules =
      variationsLoop mutatorName modules (i + 1) rest
        (heap.set p (base.appendDebug mutatorName v)) (aModules.set i (some p)) := by
  simp [variationsLoop, hm, asModule, hb]

theorem variationsLoop_spec (mutatorName : String) (modules : List blueprint.Module) :
    ∀ (rest : List String) (i : Nat) (todo : List blueprint.Ptr) (heap : Heap)
      (aModules : List (Option Module)),
      todo.length = rest.length →
      (∀ j p, todo[j]? = some p → modules[i + j]? = some (blueprint.Module.android p)) →
      (∀ p ∈ todo, p < heap.length) →
      ∃ heap1 res,
        variationsLoop mutatorName modules i rest heap aModules = (heap1, Result.ok res) ∧
        heap1.length = heap.length ∧ res.length = aModules.length ∧
        (∀ k, res[k]? =
          if i ≤ k ∧ k < i + todo.length then
            (if k < aModules.length then some (todo[k - i]?) else none)
          else aModules[k]?) ∧
        (∀ q, q ∉ todo → heap1[q]? = heap[q]?) ∧
        (todo.Nodup → ∀ (j : Nat) (p : blueprint.Ptr) (v : String),
          todo[j]? = some p → rest[j]? = some v →
          heap1[p]? = (heap[p]?).map (fun b : ModuleBase => b.appendDebug mutatorName v)) := by
  intro rest
  induction rest with
  | nil =>
    intro i todo heap aModules hlen _ _
    have htodo : todo = [] := List.length_eq_zero.mp (by simpa using hlen)
    subst htodo
    refine ⟨heap, aModules, rfl, rfl, rfl, ?_, fun _ _ => rfl, ?_⟩
    · intro k
      have : ¬ (i ≤ k ∧ k < i + ([] : List blueprint.Ptr).length) := by
        simp only [List.length_nil]; omega
      rw [if_neg this]
    · intro _ j p v hj
      simp at hj
  | cons v rest ih =>
    intro i todo heap aModules hlen hmod hvalid
    cases todo with
    | nil => simp at hlen
    | cons p todo =>
      have hm : modules[i]? = some (blueprint.Module.android p) := by
        have := hmod 0 p (by simp)
        simpa using this
      have hp : p < heap.length := hvalid p (List.mem_cons_self _ _)
      have hb : heap[p]? = some heap[p] := List.getElem?_eq_getElem hp
      rw [variationsLoop_step mutatorName modules i v rest heap aModules p heap[p] hm hb]
      obtain ⟨heap1, res, hrun, hl1, hl2, hres, hframe, hupd⟩ :=
        ih (i + 1) todo (heap.set p (heap[p].appendDebug mutatorName v))
          (aModules.set i (some p)) (by simpa using hlen)
          (fun j q hq => by
            have := hmod (j + 1) q (by simpa using hq)
            rw [show i + 1 + j = i + (j + 1) by omega]
            exact this)
          (fun q hq => by
            rw [List.length_set]
            exact hvalid q (List.mem_cons_of_mem _ hq))
      refine ⟨heap1, res, hrun, ?_, ?_, ?_, ?_, ?_⟩
      · rw [hl1, List.length_set]
      · rw [hl2, List.length_set]
      · intro k
        rw [hres k, List.length_set, List.length_cons]
        by_cases hk : k = i
        · subst hk
          rw [if_neg (by omega), if_pos (by omega), List.getElem?_set]
          simp
        · by_cases hin : i + 1 ≤ k ∧ k < i + 1 + todo.length
          · have hki : k - i = (k - (i + 1)) + 1 := by omega
            rw [if_pos hin, if_pos (show i ≤ k ∧ k < i + (todo.length + 1) by omega), hki,
              List.getElem?_cons_succ]
          · rw [if_neg hin, if_neg (show ¬ (i ≤ k ∧ k < i + (todo.length + 1)) by omega),
              List.getElem?_set_ne (fun h => hk h.symm)]
      · intro q hq
        have hqp : q ≠ p := fun h => hq (h ▸ List.mem_cons_self _ _)
        have hqt : q ∉ todo := fun h => hq (List.mem_cons_of_mem _ h)
        rw [hframe q hqt, List.getElem?_set_ne (fun h => hqp h.symm)]
      · intro hnd j q w hq hw
        have hpt : p ∉ todo := (List.nodup_cons.mp hnd).1
        have hndt : todo.Nodup := (List.nodup_cons.mp hnd).2
        cases j with
        | zero =>
          have hqp : q = p := by simpa using hq.symm
          have hwv : w = v := by simpa using hw.symm
          subst hqp; subst hwv
          rw [hframe q hpt, List.getElem?_set_self hp, hb]
          rfl
        | succ j =>
          have hq1 : todo[j]? = some q := by simpa using hq
          have hw1 : rest[j]? = some w := by simpa using hw
          have hqp : q ≠ p := fun h => hpt (h ▸ List.getElem?_mem hq1)
          rw [hupd hndt j q w hq1 hw1, List.getElem?_set_ne (fun h => hqp h.symm)]

theorem variationsLoop_all_android (mutatorName : String) (variations : List String)
    (heap : Heap) (ps : List blueprint.Ptr) (hlen : ps.length = variations.length)
    (hvalid : ∀ p ∈ ps, p < heap.length) :
    ∃ heap1,
      variationsLoop mutatorName (ps.map blueprint.Module.android) 0 variations heap
          (List.replicate (ps.map blueprint.Module.android).length none) =
        (heap1, Result.ok (ps.map some)) ∧
      heap1.length = heap.length ∧
      (∀ q, q ∉ ps → heap1[q]? = heap[q]?) ∧
      (ps.Nodup → ∀ (j : Nat) (p : blueprint.Ptr) (v : String),
        ps[j]? = some p → variations[j]? = some v →
        heap1[p]? = (heap[p]?).map (fun b : ModuleBase => b.appendDebug mutatorName v)) := by
  obtain ⟨heap1, res, hrun, hl1, hl2, hres, hframe, hupd⟩ :=
    variationsLoop_spec mutatorName (ps.map blueprint.Module.android) variations 0 ps heap
      (List.replicate (ps.map blueprint.Module.android).length none) hlen
      (fun j p hj => by simp [List.getElem?_map, hj]) hvalid
  have hreseq : res = ps.map some := by
    apply List.ext_getElem?
    intro k
    rw [hres k]
    simp only [List.length_replicate, List.length_map, List.getElem?_map, Nat.zero_le, true_and,
      Nat.zero_add, Nat.sub_zero]
    by_cases hk : k < ps.length
    · rw [if_pos hk, if_pos hk, List.getElem?_eq_getElem hk]
      rfl
    · rw [if_neg hk, List.getElem?_eq_none (by simpa using hk),
        List.getElem?_eq_none (by omega)]
      rfl
  subst hreseq
  exact ⟨heap1, hrun, hl1, hframe, hupd⟩

theorem variationsLoop_append (mutatorName : String) (modules : List blueprint.Module)
    (rest2 : List String) :
    ∀ (rest1 : List String) (i : Nat) (heap : Heap) (aModules : List (Option Module))
      (heap1 : Heap) (res1 : List (Option Module)),
      variationsLoop mutatorName modules i rest1 heap aModules = (heap1, Result.ok res1) →
      variationsLoop mutatorName modules i (rest1 ++ rest2) heap aModules =
        variationsLoop mutatorName modules (i + rest1.length) rest2 heap1 res1 := by
  intro rest1
  induction rest1 with
  | nil =>
    intro i heap aModules heap1 res1 h
    simp only [variationsLoop, Prod.mk.injEq, Result.ok.injEq] at h
    obtain ⟨h1, h2⟩ := h
    subst h1; subst h2
    rfl
  | cons v rest1 ih =>
    intro i heap aModules heap1 res1 h
    simp only [variationsLoop, List.cons_append] at h ⊢
    cases hm : modules[i]? with
    | none => simp [hm] at h
    | some m =>
      cases ha : asModule m with
      | none => simp [hm, ha] at h
      | some a =>
        cases hb : heap[a]? with
        | none => simp [hm, ha, hb] at h
        | some base =>
          simp only [hm, ha, hb] at h ⊢
          have e := ih (i + 1) _ _ heap1 res1 h
          rw [List.length_cons, show i + (rest1.length + 1) = i + 1 + rest1.length by omega]
          exact e

theorem variationsLoop_result (mutatorName : String) (variations : List String)
    (heap : Heap) (ps : List blueprint.Ptr) (hvalid : ∀ p ∈ ps, p < heap.length) :
    (variationsLoop mutatorName (ps.map blueprint.Module.android) 0 variations heap
        (List.replicate (ps.map blueprint.Module.android).length none)).2 =
      if ps.length < variations.length then Result.panic "index out of range"
      else Result.ok ((ps.take variations.length).map some ++
        List.replicate (ps.length - variations.length) none) := by
  by_cases hshort : ps.length < variations.length
  · rw [if_pos hshort]
    obtain ⟨heap1, res, hrun, _⟩ :=
      variationsLoop_spec mutatorName (ps.map blueprint.Module.android)
        (variations.take ps.length) 0 ps heap
        (List.replicate (ps.map blueprint.Module.android).length none)
        (by rw [List.length_take]; omega)
        (fun j p hj => by simp [List.getElem?_map, hj]) hvalid
    have hsplit : variations = variations.take ps.length ++ variations.drop ps.length :=
      (List.take_append_drop _ _).symm
    have hrun2 := variationsLoop_append mutatorName (ps.map blueprint.Module.android)
      (variations.drop ps.length) (variations.take ps.length) 0 heap _ heap1 res hrun
    rw [← hsplit] at hrun2
    rw [hrun2]
    have hlt : (variations.take ps.length).length = ps.length := by
      rw [List.length_take]; omega
    cases hd : variations.drop ps.length with
    | nil =>
      have := congrArg List.length hd
      rw [List.length_drop] at this
      simp at this
      omega
    | cons v rest =>
      have hnone : (ps.map blueprint.Module.android)[0 + (variations.take ps.length).length]? =
          none := by
        rw [hlt]
        exact List.getElem?_eq_none (by simp)
      simp only [variationsLoop, hnone]
  · rw [if_neg hshort]
    have hle : variations.length ≤ ps.length := by omega
    obtain ⟨heap1, res, hrun, _, hl2, hres, _⟩ :=
      variationsLoop_spec mutatorName (ps.map blueprint.Module.android) variations 0
        (ps.take variations.length) heap
        (List.replicate (ps.map blueprint.Module.android).length none)
        (by rw [List.length_take]; omega)
        (fun j p hj => by
          rw [List.getElem?_take] at hj
          split at hj
          · simp [List.getElem?_map, hj]
          · cases hj)
        (fun p hp => hvalid p (List.mem_of_mem_take hp))
    rw [hrun]
    show Result.ok res = Result.ok _
    congr 1
    apply List.ext_getElem?
    intro k
    rw [hres k]
    have htl : (ps.take variations.length).length = variations.length := by
      rw [List.length_take]; omega
    simp only [List.length_replicate, List.length_map, Nat.zero_le, true_and, Nat.zero_add,
      Nat.sub_zero, htl]
    by_cases hk : k < variations.length
    · have hkp : k < ps.length := by omega
      have hkt : k < (ps.take variations.length).length := by rw [htl]; exact hk
      rw [if_pos hk, if_pos hkp, List.getElem?_append_left (by rw [List.length_map]; exact hkt),
        List.getElem?_map, List.getElem?_eq_getElem hkt]
      rfl
    · rw [if_neg hk, List.getElem?_append_right (by simp [htl]; omega), List.length_map, htl,
        List.getElem?_replicate, List.getElem?_replicate]
      by_cases hkp : k < ps.length
      · rw [if_pos hkp, if_pos (by omega)]
      · rw [if_neg hkp, if_neg (by omega)]

theorem appendDebug_fields (base : ModuleBase) (mutatorName variation : String) :
    (base.appendDebug mutatorName variation).commonProperties.DebugMutators =
        base.commonProperties.DebugMutators ++ [mutatorName] ∧
      (base.appendDebug mutatorName variation).commonProperties.DebugVariations =
        base.commonProperties.DebugVariations ++ [variation] ∧
      (base.appendDebug mutatorName variation).commonProperties.DebugName =
        base.commonProperties.DebugName ∧
      (base.appendDebug mutatorName variation).commonProperties.Bp2buildInfo =
        base.commonProperties.Bp2buildInfo ∧
      (base.appendDebug mutatorName variation).Enabled = base.Enabled :=
  ⟨rfl, rfl, rfl, rfl, rfl⟩

/-! ## Claims -/

/-- C1: for all phase lists, `collateRegisteredMutators` returns the mutators
appended by the preArch callbacks, then those of the preDeps callbacks, then
the one built-in record (named "deps", bottom-up, parallel), then those of the
postDeps callbacks, then those of the finalDeps callbacks (the only ones run
with the final-phase flag set); callbacks contribute in list order and the
calls of one callback in the order they are made. -/
theorem collateRegisteredMutators_is_concatenation (methods : ModuleMethods)
    (preArch preDeps postDeps finalDeps : List RegisterMutatorFunc) :
    collateRegisteredMutators methods preArch preDeps postDeps finalDeps =
        preArch.flatMap (RegisterMutatorFunc.appended false false) ++
          preDeps.flatMap (RegisterMutatorFunc.appended false false) ++
          RegisterMutatorFunc.appended false false (registerDepsMutator methods) ++
          postDeps.flatMap (RegisterMutatorFunc.appended false false) ++
          finalDeps.flatMap (RegisterMutatorFunc.appended true false) ∧
      (RegisterMutatorFunc.appended false false (registerDepsMutator methods)).map mutator.shape =
        [("deps", true, true, false, false)] ∧
      ∀ (finalPhase bazelConversionMode : Bool) (f : RegisterMutatorFunc),
        RegisterMutatorFunc.appended finalPhase bazelConversionMode f =
          f.flatMap (RegisterCall.appended finalPhase bazelConversionMode) := by
  exact ⟨collateRegisteredMutators_eq methods preArch preDeps postDeps finalDeps, rfl,
    RegisterMutatorFunc.appended_eq⟩

/-- C2: on a bottom-up context whose `finalPhase` flag is true,
`CreateVariations` and `CreateLocalVariations` panic for every list of
variation names, and the world at the panic is the world before the call: no
call was forwarded to blueprint and no module was written. -/
theorem createVariations_panics_in_finalPhase (b : bottomUpMutatorContext)
    (variations : List String) (w : World) (hfinal : b.finalPhase = true) :
    b.CreateVariations variations w =
        (w, Result.panic "CreateVariations not allowed in FinalDepsMutators") ∧
      b.CreateLocalVariations variations w =
        (w, Result.panic "CreateLocalVariations not allowed in FinalDepsMutators") := by
  simp [bottomUpMutatorContext.CreateVariations, bottomUpMutatorContext.CreateLocalVariations,
    hfinal]

/-- C2, evaluated on `libfoo` with the three stubs versions. -/
theorem createVariations_panics_in_finalPhase_witness :
    (exampleCtx true).CreateVariations ["29", "R", "current"] exampleWorld =
        (exampleWorld, Result.panic "CreateVariations not allowed in FinalDepsMutators") ∧
      (exampleCtx true).CreateLocalVariations ["29", "R", "current"] exampleWorld =
        (exampleWorld, Result.panic "CreateLocalVariations not allowed in FinalDepsMutators") :=
  createVariations_panics_in_finalPhase (exampleCtx true) ["29", "R", "current"] exampleWorld rfl

/-- C3, refuted as stated: a raw bottom-up mutator registered by a FinalDeps
callback through `BottomUpBlueprint` splits `libfoo` into three variants; the
call reaches blueprint and the mutator returns normally. -/
theorem finalDeps_raw_mutator_creates_variants :
    ((collateRegisteredMutators exampleMethods [] [] []
          [[RegisterCall.BottomUpBlueprint "raw_version" (some rawStubsVersionsMutator)
            false]]).getLast?.bind mutator.bottomUpMutator).map
        (fun f => f (exampleBp 0 "raw_version") exampleWorld) =
      some
        ({ modules := exampleWorld.modules ++ exampleWorld.modules ++ exampleWorld.modules ++
              exampleWorld.modules
           calls := [blueprint.Call.CreateVariations ["29", "R", "current"]] },
          Result.ok ()) := by
  decide

/-- C3 (amended): take a call made by a FinalDeps callback and a blueprint
context whose module is an android module.  For a `BottomUp` call the record in
the collated list runs the user's function on a context that wraps the
blueprint context and on which `CreateVariations` and `CreateLocalVariations`
panic without changing the world; the same holds for the context that the
`Mutate` step of a `Transition` call receives.  For a `BottomUpBlueprint` call
the record holds the user's function itself, which is run on the blueprint
context. -/
theorem finalDeps_guard_on_wrapped_contexts (methods : ModuleMethods)
    (preArch preDeps postDeps finalDeps : List RegisterMutatorFunc)
    (cb : RegisterMutatorFunc) (hcb : cb ∈ finalDeps) (c : RegisterCall) (hc : c ∈ cb)
    (ctx : blueprint.BottomUpMutatorContext) (a : Module)
    (ha : asModule ctx.Module = some a) :
    match c with
    | RegisterCall.BottomUp name m _ =>
      ∃ r f b, r ∈ collateRegisteredMutators methods preArch preDeps postDeps finalDeps ∧
        r.name = name ∧ r.bottomUpMutator = some f ∧ (∀ w, f ctx w = m b w) ∧ b.bp = ctx ∧
        ∀ variations w,
          b.CreateVariations variations w =
              (w, Result.panic "CreateVariations not allowed in FinalDepsMutators") ∧
            b.CreateLocalVariations variations w =
              (w, Result.panic "CreateLocalVariations not allowed in FinalDepsMutators")
    | RegisterCall.Transition name m =>
      ∃ r atm b, r ∈ collateRegisteredMutators methods preArch preDeps postDeps finalDeps ∧
        r.name = name ∧ r.transitionMutator = some atm ∧
        (∀ variation w, atm.Mutate ctx variation w = m.Mutate b variation w) ∧ b.bp = ctx ∧
        ∀ variations w,
          b.CreateVariations variations w =
              (w, Result.panic "CreateVariations not allowed in FinalDepsMutators") ∧
            b.CreateLocalVariations variations w =
              (w, Result.panic "CreateLocalVariations not allowed in FinalDepsMutators")
    | RegisterCall.BottomUpBlueprint name m _ =>
      ∃ r, r ∈ collateRegisteredMutators methods preArch preDeps postDeps finalDeps ∧
        r.name = name ∧ r.bottomUpMutator = m
    | RegisterCall.TopDown _ _ _ => True := by
  cases c with
  | TopDown name m parallel => trivial
  | BottomUp name m parallel =>
    obtain ⟨r, f, hr, hname, _, hf, _, _, hrun, _⟩ := appended_BottomUp true false name m parallel
    refine ⟨r, f, bottomUpMutatorContextFactory ctx a true false, ?_, ?_, hf,
      fun w => hrun ctx a w ha, rfl, fun variations w => finalPhase_guard _ rfl variations w⟩
    · exact mem_collate_of_finalDeps methods preArch preDeps postDeps finalDeps cb hcb _ hc r
        (by rw [hr]; exact List.mem_singleton.mpr rfl)
    · simpa using hname
  | BottomUpBlueprint name m parallel =>
    cases parallel
    · exact ⟨_, mem_collate_of_finalDeps methods preArch preDeps postDeps finalDeps cb hcb _ hc _
        (List.mem_singleton.mpr rfl), rfl, rfl⟩
    · exact ⟨_, mem_collate_of_finalDeps methods preArch preDeps postDeps finalDeps cb hcb _ hc _
        (List.mem_singleton.mpr rfl), rfl, rfl⟩
  | Transition name m =>
    refine ⟨_, _, bottomUpMutatorContextFactory ctx a true false,
      mem_collate_of_finalDeps methods preArch preDeps postDeps finalDeps cb hcb _ hc _
        (by rw [appended_Transition]; exact List.mem_singleton.mpr rfl),
      rfl, rfl, ?_, rfl, fun variations w => finalPhase_guard _ rfl variations w⟩
    intro variation w
    simp only [androidTransitionMutator.Mutate, ha]

/-- C3 (amended), at the FinalDeps callback that registers the stubs-versions
mutator through `BottomUp`, run on `libfoo`. -/
theorem finalDeps_guard_on_wrapped_contexts_witness :
    ∃ r f b,
      r ∈ collateRegisteredMutators exampleMethods [] [] []
          [[RegisterCall.BottomUp "version" stubsVersionsMutator false]] ∧
        r.name = "version" ∧ r.bottomUpMutator = some f ∧
        (∀ w, f (exampleBp 0 "version") w = stubsVersionsMutator b w) ∧
        b.bp = exampleBp 0 "version" ∧
        ∀ variations w,
          b.CreateVariations variations w =
              (w, Result.panic "CreateVariations not allowed in FinalDepsMutators") ∧
            b.CreateLocalVariations variations w =
              (w, Result.panic "CreateLocalVariations not allowed in FinalDepsMutators") :=
  finalDeps_guard_on_wrapped_contexts exampleMethods [] [] []
    [[RegisterCall.BottomUp "version" stubsVersionsMutator false]]
    [RegisterCall.BottomUp "version" stubsVersionsMutator false] (List.mem_singleton.mpr rfl)
    (RegisterCall.BottomUp "version" stubsVersionsMutator false) (List.mem_singleton.mpr rfl)
    (exampleBp 0 "version") 0 rfl

/-- C4: the collated list is the records of the preArch, preDeps, built-in
deps and postDeps callbacks, all built with the final-phase flag false,
followed by the records of the finalDeps callbacks, all built with the flag
true.  A record built from a `BottomUp` call with flag `finalPhase` runs the
user's function on a context carrying exactly that flag, and a record built
from a `Transition` call stores it and hands it to `Mutate`.  On a context
built with the flag false, `CreateVariations` and `CreateLocalVariations` pass
the guard: one call with the same variation names is forwarded to blueprint. -/
theorem finalPhase_iff_registered_by_finalDeps (methods : ModuleMethods)
    (preArch preDeps postDeps finalDeps : List RegisterMutatorFunc)
    (finalPhase : Bool) (name : String) (m : BottomUpMutator) (tm : TransitionMutator)
    (parallel : Bool) (ctx : blueprint.BottomUpMutatorContext) (a : Module)
    (ha : asModule ctx.Module = some a) (variations : List String) (variation : String)
    (w : World) :
    collateRegisteredMutators methods preArch preDeps postDeps finalDeps =
        (preArch ++ preDeps ++ [registerDepsMutator methods] ++ postDeps).flatMap
            (RegisterMutatorFunc.appended false false) ++
          finalDeps.flatMap (RegisterMutatorFunc.appended true false) ∧
      (∃ r f b, RegisterCall.appended finalPhase false
            (RegisterCall.BottomUp name m parallel) = [r] ∧
          r.bottomUpMutator = some f ∧ f ctx w = m b w ∧ b.bp = ctx ∧
          b.finalPhase = finalPhase) ∧
      (∃ r atm b, RegisterCall.appended finalPhase false (RegisterCall.Transition name tm) = [r] ∧
          r.transitionMutator = some atm ∧ atm.finalPhase = finalPhase ∧
          atm.Mutate ctx variation w = tm.Mutate b variation w ∧ b.bp = ctx ∧
          b.finalPhase = finalPhase) ∧
      ((bottomUpMutatorContextFactory ctx a false false).CreateVariations variations w).1.calls =
        w.calls ++ [blueprint.Call.CreateVariations variations] ∧
      ((bottomUpMutatorContextFactory ctx a false false).CreateLocalVariations variations
          w).1.calls =
        w.calls ++ [blueprint.Call.CreateLocalVariations variations] := by
  refine ⟨?_, ?_, ?_, rfl, rfl⟩
  · rw [collateRegisteredMutators_eq]
    simp only [List.flatMap_append, List.flatMap_cons, List.flatMap_nil, List.append_nil]
  · obtain ⟨r, f, hr, _, _, hf, _, _, hrun, _⟩ :=
      appended_BottomUp finalPhase false name m parallel
    exact ⟨r, f, bottomUpMutatorContextFactory ctx a finalPhase false, hr, hf,
      hrun ctx a w ha, rfl, rfl⟩
  · refine ⟨_, _, bottomUpMutatorContextFactory ctx a finalPhase false,
      appended_Transition finalPhase false name tm, rfl, rfl, ?_, rfl, rfl⟩
    simp only [androidTransitionMutator.Mutate, ha]

/-- C4, at a postDeps callback that registers the stubs-versions mutator: the
context it runs on has the flag false, and the three names reach blueprint. -/
theorem finalPhase_iff_registered_by_finalDeps_witness :
    asModule (exampleBp 0 "version").Module = some 0 ∧
      ((bottomUpMutatorContextFactory (exampleBp 0 "version") 0 false false).CreateVariations
          ["29", "R", "current"] exampleWorld).1.calls =
        exampleWorld.calls ++ [blueprint.Call.CreateVariations ["29", "R", "current"]] :=
  ⟨rfl,
    (finalPhase_iff_registered_by_finalDeps exampleMethods []
      [] [[RegisterCall.BottomUp "version" stubsVersionsMutator false]] [] false "version"
      stubsVersionsMutator
      { Split := fun _ _ => [""], OutgoingTransition := fun _ v _ => v,
        IncomingTransition := fun _ v _ => v, Mutate := fun _ _ w => (w, Result.ok ()) }
      false (exampleBp 0 "version") 0 rfl ["29", "R", "current"] "29" exampleWorld).2.2.2.1⟩

/-- C6: for every list of caller-supplied callbacks,
`RegisterMutatorsForBazelConversion` runs, on one fresh context in conversion
mode, the callbacks `RegisterNamespaceMutator`, `RegisterDefaultsPreArchMutators`,
`RegisterPrebuiltsPreArchMutators`, the caller's callbacks in their order and
last `registerBp2buildConversionMutator`; the records registered with blueprint
are exactly the ones these callbacks append in conversion mode, in this order,
and nothing else. -/
theorem RegisterMutatorsForBazelConversion_sequence (ext : ExternalCallbacks) (ctx : Context)
    (preArchMutators : List RegisterMutatorFunc) :
    (RegisterMutatorsForBazelConversion ext ctx preArchMutators).1 =
        register
          ([ext.RegisterNamespaceMutator, ext.RegisterDefaultsPreArchMutators,
              ext.RegisterPrebuiltsPreArchMutators] ++ preArchMutators ++
            [ext.registerBp2buildConversionMutator])
          { mutators := [], finalPhase := false, bazelConversionMode := true } ∧
      (RegisterMutatorsForBazelConversion ext ctx preArchMutators).1.bazelConversionMode = true ∧
      (RegisterMutatorsForBazelConversion ext ctx preArchMutators).1.mutators =
        RegisterMutatorFunc.appended false true ext.RegisterNamespaceMutator ++
          RegisterMutatorFunc.appended false true ext.RegisterDefaultsPreArchMutators ++
          RegisterMutatorFunc.appended false true ext.RegisterPrebuiltsPreArchMutators ++
          preArchMutators.flatMap (RegisterMutatorFunc.appended false true) ++
          RegisterMutatorFunc.appended false true ext.registerBp2buildConversionMutator ∧
      (RegisterMutatorsForBazelConversion ext ctx preArchMutators).2 =
        registerAll (RegisterMutatorsForBazelConversion ext ctx preArchMutators).1.mutators ctx := by
  have h := register_spec
    ([ext.RegisterNamespaceMutator, ext.RegisterDefaultsPreArchMutators,
        ext.RegisterPrebuiltsPreArchMutators] ++ preArchMutators ++
      [ext.registerBp2buildConversionMutator])
    { mutators := [], finalPhase := false, bazelConversionMode := true }
  have hseq : (RegisterMutatorsForBazelConversion ext ctx preArchMutators).1 =
      register
        ([ext.RegisterNamespaceMutator, ext.RegisterDefaultsPreArchMutators,
            ext.RegisterPrebuiltsPreArchMutators] ++ preArchMutators ++
          [ext.registerBp2buildConversionMutator])
        { mutators := [], finalPhase := false, bazelConversionMode := true } := by
    simp [RegisterMutatorsForBazelConversion, registerMutatorsForBazelConversion]
  refine ⟨hseq, ?_, ?_, rfl⟩
  · rw [hseq, h.2.1]
  · rw [hseq, h.2.2]
    simp [List.flatMap_append, List.flatMap_cons]

/-- C7, refuted as stated: a preArch callback registers a bottom-up mutator
under the name "deps"; no call fails and the collated list holds the name
twice. -/
theorem duplicate_name_is_recorded :
    (collateRegisteredMutators exampleMethods
          [[RegisterCall.BottomUp "deps" stubsVersionsMutator false]] [] [] []).map
        mutator.name = ["deps", "deps"] ∧
      ¬ ((collateRegisteredMutators exampleMethods
          [[RegisterCall.BottomUp "deps" stubsVersionsMutator false]] [] [] []).map
        mutator.name).Nodup := by
  refine ⟨rfl, ?_⟩
  have h : (collateRegisteredMutators exampleMethods
      [[RegisterCall.BottomUp "deps" stubsVersionsMutator false]] [] [] []).map
        mutator.name = ["deps", "deps"] := rfl
  rw [h]
  decide

/-- C7 (amended): the registration context checks no name.  Whatever records `x`
already holds, running a callback on it appends one record per call, in call
order, under the name that the call records, and keeps the earlier records. -/
theorem registration_appends_one_record_per_call (x : registerMutatorsContext)
    (f : RegisterMutatorFunc) :
    (RegisterMutatorFunc.run f x).mutators.length = x.mutators.length + f.length ∧
      (RegisterMutatorFunc.run f x).mutators.take x.mutators.length = x.mutators ∧
      (RegisterMutatorFunc.run f x).mutators.map mutator.name =
        x.mutators.map mutator.name ++
          f.flatMap (fun c =>
            (RegisterCall.appended x.finalPhase x.bazelConversionMode c).map mutator.name) ∧
      ∀ c : RegisterCall,
        (RegisterCall.appended x.finalPhase x.bazelConversionMode c).length = 1 := by
  have h := (RegisterMutatorFunc.run_spec f x).2.2
  have hlen : (f.flatMap (RegisterCall.appended x.finalPhase x.bazelConversionMode)).length =
      f.length := by
    induction f with
    | nil => rfl
    | cons c f ih =>
      rw [List.flatMap_cons, List.length_append, RegisterCall.appended_length]
      have ih2 := ih (RegisterMutatorFunc.run_spec f x).2.2
      simp only [List.length_cons]
      omega
  refine ⟨?_, ?_, ?_, RegisterCall.appended_length _ _⟩
  · rw [h, List.length_append, hlen]
  · rw [h, List.take_left]
  · rw [h, List.map_append, List.map_flatMap]

/-- C8: outside the final phase, when blueprint returns one android module per
variation name (`ps`, resp. `psLocal`, are their addresses, all allocated),
`CreateVariations` and `CreateLocalVariations` return normally, and the list
they return is exactly the modules blueprint returned, in blueprint's order:
as many as there are names, the i-th being the variant created for the i-th
name. -/
theorem createVariations_returns_one_module_per_name (b : bottomUpMutatorContext)
    (variations : List String) (w : World) (ps psLocal : List blueprint.Ptr)
    (hfinal : b.finalPhase = false)
    (hk : (b.bp.CreateVariationsImpl variations w.modules).2 =
      ps.map blueprint.Module.android)
    (hkl : (b.bp.CreateLocalVariationsImpl variations w.modules).2 =
      psLocal.map blueprint.Module.android)
    (hlen : ps.length = variations.length) (hlenl : psLocal.length = variations.length)
    (hvalid : ∀ p ∈ ps, p < (b.bp.CreateVariationsImpl variations w.modules).1.length)
    (hvalidl : ∀ p ∈ psLocal,
      p < (b.bp.CreateLocalVariationsImpl variations w.modules).1.length) :
    ((b.CreateVariations variations w).2 = Result.ok (ps.map some) ∧
        (ps.map some).length = variations.length) ∧
      ((b.CreateLocalVariations variations w).2 = Result.ok (psLocal.map some) ∧
        (psLocal.map some).length = variations.length) := by
  obtain ⟨heap1, hrun, _⟩ := variationsLoop_all_android b.MutatorName variations
    (b.bp.CreateVariationsImpl variations w.modules).1 ps hlen hvalid
  obtain ⟨heap2, hrunl, _⟩ := variationsLoop_all_android b.MutatorName variations
    (b.bp.CreateLocalVariationsImpl variations w.modules).1 psLocal hlenl hvalidl
  refine ⟨⟨?_, by simpa using hlen⟩, ⟨?_, by simpa using hlenl⟩⟩
  · simp only [bottomUpMutatorContext.CreateVariations, hfinal,
      blueprint.BottomUpMutatorContext.CreateVariations, hk]
    rw [hrun]
    rfl
  · simp only [bottomUpMutatorContext.CreateLocalVariations, hfinal,
      blueprint.BottomUpMutatorContext.CreateLocalVariations, hkl]
    rw [hrunl]
    rfl

/-- C8, at the instance of the test: splitting `libfoo` by the stubs versions
"29", "R", "current" returns three variants, in this order. -/
theorem createVariations_returns_one_module_per_name_witness :
    ((exampleCtx false).CreateVariations ["29", "R", "current"] exampleWorld).2 =
        Result.ok [some 1, some 2, some 3] ∧
      ((exampleCtx false).CreateLocalVariations ["29", "R", "current"] exampleWorld).2 =
        Result.ok [some 1, some 2, some 3] :=
  have h := createVariations_returns_one_module_per_name (exampleCtx false)
    ["29", "R", "current"] exampleWorld [1, 2, 3] [1, 2, 3] rfl rfl rfl rfl rfl
    (by decide) (by decide)
  ⟨h.1.1, h.2.1⟩

/-- C9: outside the final phase, when blueprint returns one android module per
variation name, all distinct and allocated, the i-th returned variant `p`
leaves `CreateVariations` (resp. `pl` leaves `CreateLocalVariations`) with the
`DebugMutators` it had when blueprint returned it followed by the name of the
current mutator, and with its `DebugVariations` followed by the i-th variation
name; its other properties are the same, and a module `q` that was not
returned is as blueprint left it. -/
theorem createVariations_extends_debug_breadcrumb (b : bottomUpMutatorContext)
    (variations : List String) (w : World) (ps psLocal : List blueprint.Ptr)
    (hfinal : b.finalPhase = false)
    (hk : (b.bp.CreateVariationsImpl variations w.modules).2 =
      ps.map blueprint.Module.android)
    (hkl : (b.bp.CreateLocalVariationsImpl variations w.modules).2 =
      psLocal.map blueprint.Module.android)
    (hlen : ps.length = variations.length) (hlenl : psLocal.length = variations.length)
    (hvalid : ∀ p ∈ ps, p < (b.bp.CreateVariationsImpl variations w.modules).1.length)
    (hvalidl : ∀ p ∈ psLocal,
      p < (b.bp.CreateLocalVariationsImpl variations w.modules).1.length)
    (hnd : ps.Nodup) (hndl : psLocal.Nodup)
    (i : Nat) (v : String) (p pl : blueprint.Ptr) (hv : variations[i]? = some v)
    (hp : ps[i]? = some p) (hpl : psLocal[i]? = some pl)
    (q : blueprint.Ptr) (hq : q ∉ ps) (hql : q ∉ psLocal) :
    (∃ base base1,
        (b.bp.CreateVariationsImpl variations w.modules).1[p]? = some base ∧
        (b.CreateVariations variations w).1.modules[p]? = some base1 ∧
        base1.commonProperties.DebugMutators =
          base.commonProperties.DebugMutators ++ [b.MutatorName] ∧
        base1.commonProperties.DebugVariations =
          base.commonProperties.DebugVariations ++ [v] ∧
        base1.commonProperties.DebugName = base.commonProperties.DebugName ∧
        base1.commonProperties.Bp2buildInfo = base.commonProperties.Bp2buildInfo ∧
        base1.Enabled = base.Enabled) ∧
      (∃ base base1,
        (b.bp.CreateLocalVariationsImpl variations w.modules).1[pl]? = some base ∧
        (b.CreateLocalVariations variations w).1.modules[pl]? = some base1 ∧
        base1.commonProperties.DebugMutators =
          base.commonProperties.DebugMutators ++ [b.MutatorName] ∧
        base1.commonProperties.DebugVariations =
          base.commonProperties.DebugVariations ++ [v] ∧
        base1.commonProperties.DebugName = base.commonProperties.DebugName ∧
        base1.commonProperties.Bp2buildInfo = base.commonProperties.Bp2buildInfo ∧
        base1.Enabled = base.Enabled) ∧
      (b.CreateVariations variations w).1.modules[q]? =
        (b.bp.CreateVariationsImpl variations w.modules).1[q]? ∧
      (b.CreateLocalVariations variations w).1.modules[q]? =
        (b.bp.CreateLocalVariationsImpl variations w.modules).1[q]? := by
  obtain ⟨heap1, hrun, _, hframe, hupd⟩ := variationsLoop_all_android b.MutatorName variations
    (b.bp.CreateVariationsImpl variations w.modules).1 ps hlen hvalid
  obtain ⟨heap2, hrunl, _, hframel, hupdl⟩ := variationsLoop_all_android b.MutatorName
    variations (b.bp.CreateLocalVariationsImpl variations w.modules).1 psLocal hlenl hvalidl
  have hafter : (b.CreateVariations variations w).1.modules = heap1 := by
    simp only [bottomUpMutatorContext.CreateVariations, hfinal,
      blueprint.BottomUpMutatorContext.CreateVariations, hk]
    rw [hrun]
    rfl
  have hafterl : (b.CreateLocalVariations variations w).1.modules = heap2 := by
    simp only [bottomUpMutatorContext.CreateLocalVariations, hfinal,
      blueprint.BottomUpMutatorContext.CreateLocalVariations, hkl]
    rw [hrunl]
    rfl
  have hpv : p < (b.bp.CreateVariationsImpl variations w.modules).1.length :=
    hvalid p (List.getElem?_mem hp)
  have hplv : pl < (b.bp.CreateLocalVariationsImpl variations w.modules).1.length :=
    hvalidl pl (List.getElem?_mem hpl)
  refine ⟨⟨_, _, List.getElem?_eq_getElem hpv, ?_, appendDebug_fields _ b.MutatorName v⟩,
    ⟨_, _, List.getElem?_eq_getElem hplv, ?_, appendDebug_fields _ b.MutatorName v⟩, ?_, ?_⟩
  · rw [hafter, hupd hnd i p v hp hv, List.getElem?_eq_getElem hpv]
    rfl
  · rw [hafterl, hupdl hndl i pl v hpl hv, List.getElem?_eq_getElem hplv]
    rfl
  · rw [hafter, hframe q hq]
  · rw [hafterl, hframel q hql]

/-- C9, on `libfoo` (split before by "link" into "shared"): its second new
variant, at address 2, gets the breadcrumb "version"/"R" after "link"/"shared",
and `libfoo` itself, at address 0, is unchanged. -/
theorem createVariations_extends_debug_breadcrumb_witness :
    (((exampleCtx false).CreateVariations ["29", "R", "current"] exampleWorld).1.modules[2]?).map
        (fun m => (m.commonProperties.DebugMutators, m.commonProperties.DebugVariations)) =
        some (["link", "version"], ["shared", "R"]) ∧
      ((exampleCtx false).CreateVariations ["29", "R", "current"] exampleWorld).1.modules[0]? =
        exampleWorld.modules[0]? := by
  have h := createVariations_extends_debug_breadcrumb (exampleCtx false)
    ["29", "R", "current"] exampleWorld [1, 2, 3] [1, 2, 3] rfl rfl rfl rfl rfl
    (by decide) (by decide) (by decide) (by decide) 1 "R" 2 2 rfl rfl rfl 0 (by decide)
    (by decide)
  obtain ⟨⟨base, base1, hb, hb1, hm, hvs, _⟩, _, hq, _⟩ := h
  have hbase : base = exampleWorld.modules[0] := by
    have : some base = some exampleWorld.modules[0] := by rw [← hb]; rfl
    exact Option.some.inj this
  subst hbase
  refine ⟨?_, ?_⟩
  · rw [hb1, Option.map_some', hm, hvs]
    rfl
  · rw [hq]
    rfl

/-- C10: on a context whose module `m` is allocated, `depsMutator` is one call
of the module's `DepsMutator` hook on the same context when the module is
enabled, and returns at once with the world unchanged when it is disabled;
`componentDepsMutator` does the same with the `ComponentDepsMutator` hook.
This holds for every pair of hooks. -/
theorem deps_mutators_dispatch_iff_enabled (methods : ModuleMethods)
    (ctx : bottomUpMutatorContext) (w : World) (m : Module) (base : ModuleBase)
    (hm : ctx.Module = some m) (hb : w.modules[m]? = some base) :
    depsMutator methods ctx w =
        (if base.Enabled then methods.DepsMutator m ctx w else (w, Result.ok ())) ∧
      componentDepsMutator methods ctx w =
        (if base.Enabled then methods.ComponentDepsMutator m ctx w else (w, Result.ok ())) := by
  cases he : base.Enabled <;>
    simp [depsMutator, componentDepsMutator, hm, Enabled, hb, he]

/-- C10, with hooks that add one reverse dependency: on the enabled `libfoo`
the deps mutator leaves exactly one such call in the log, on the disabled
`libfoo` it leaves the world as it was. -/
theorem deps_mutators_dispatch_iff_enabled_witness :
    depsMutator exampleHooks (exampleCtx false) exampleWorld =
        ({ exampleWorld with
            calls := [blueprint.Call.AddReverseDependency (blueprint.Module.android 0) "shared"
              "libbar"] },
          Result.ok ()) ∧
      depsMutator exampleHooks (exampleCtx false) disabledWorld = (disabledWorld, Result.ok ()) ∧
      componentDepsMutator exampleHooks (exampleCtx false) disabledWorld =
        (disabledWorld, Result.ok ()) :=
  ⟨(deps_mutators_dispatch_iff_enabled exampleHooks (exampleCtx false) exampleWorld 0
      { commonProperties :=
          { DebugName := "libfoo", DebugMutators := ["link"], DebugVariations := ["shared"] } }
      rfl rfl).1.trans rfl,
    (deps_mutators_dispatch_iff_enabled exampleHooks (exampleCtx false) disabledWorld 0
      { commonProperties :=
          { DebugName := "libfoo", DebugMutators := ["link"], DebugVariations := ["shared"] }
        Enabled := false }
      rfl rfl).1.trans rfl,
    (deps_mutators_dispatch_iff_enabled exampleHooks (exampleCtx false) disabledWorld 0
      { commonProperties :=
          { DebugName := "libfoo", DebugMutators := ["link"], DebugVariations := ["shared"] }
        Enabled := false }
      rfl rfl).2.trans rfl⟩

/-- C11, refuted as stated: on the world where `libfoo` is disabled, the
function that `BottomUp` hands to blueprint runs the user's mutator, which
splits the module (the call reaches blueprint and three variants are
allocated), and the function that `TopDown` hands to blueprint runs the user's
mutator, which renames the module. -/
theorem disabled_module_is_mutated :
    Enabled 0 disabledWorld = some false ∧
      ((RegisterCall.appended false false
            (RegisterCall.BottomUp "version" stubsVersionsMutator false)).head?.bind
          mutator.bottomUpMutator).map
          (fun f =>
            ((f (exampleBp 0 "version") disabledWorld).1.calls,
              (f (exampleBp 0 "version") disabledWorld).1.modules.length)) =
        some ([blueprint.Call.CreateVariations ["29", "R", "current"]], 4) ∧
      ((RegisterCall.appended false false
            (RegisterCall.TopDown "rename" renameMutator false)).head?.bind
          mutator.topDownMutator).map
          (fun f =>
            ((f (exampleTopDownBp 0 "rename") disabledWorld).1.calls,
              (f (exampleTopDownBp 0 "rename") disabledWorld).1.modules.map
                (fun m => m.commonProperties.DebugName))) =
        some ([blueprint.Call.Rename "libfoo_renamed"], ["libfoo_renamed"]) := by
  decide

/-- C11 (amended): the functions that `BottomUp` and `TopDown` hand to blueprint
run the user's mutator on every android module, in every world, so also when
the module is disabled; no test of `Enabled()` is made by the wrapper.  The
skipping of a disabled module is done by the mutator function itself, as the
built-in deps mutator does: registered through the same wrapper, it leaves the
world unchanged on a disabled module. -/
theorem wrappers_run_mutator_whatever_enabled (methods : ModuleMethods)
    (finalPhase bazelConversionMode : Bool) (name : String) (bu : BottomUpMutator)
    (td : TopDownMutator) (parallel : Bool) (ctx : blueprint.BottomUpMutatorContext)
    (tctx : blueprint.TopDownMutatorContext) (a ta : Module)
    (ha : asModule ctx.Module = some a) (hta : asModule tctx.Module = some ta) (w : World) :
    (∃ r f, RegisterCall.appended finalPhase bazelConversionMode
            (RegisterCall.BottomUp name bu parallel) = [r] ∧
        r.bottomUpMutator = some f ∧
        f ctx w = bu (bottomUpMutatorContextFactory ctx a finalPhase bazelConversionMode) w) ∧
      (∃ r f, RegisterCall.appended finalPhase bazelConversionMode
            (RegisterCall.TopDown name td parallel) = [r] ∧
        r.topDownMutator = some f ∧
        f tctx w =
          td { bp := tctx
               baseModuleContext :=
                { bp := tctx.toBaseModuleContext, bazelConversionMode := bazelConversionMode } }
            w) ∧
      (Enabled a w = some false →
        ∃ r f, RegisterMutatorFunc.appended finalPhase bazelConversionMode
              (registerDepsMutator methods) = [r] ∧
          r.bottomUpMutator = some f ∧ f ctx w = (w, Result.ok ())) := by
  refine ⟨?_, ?_, ?_⟩
  · obtain ⟨r, f, hr, _, _, hf, _, _, hrun, _⟩ :=
      appended_BottomUp finalPhase bazelConversionMode name bu parallel
    exact ⟨r, f, hr, hf, hrun ctx a w ha⟩
  · obtain ⟨r, f, hr, _, _, hf, _, _, hrun, _⟩ :=
      appended_TopDown finalPhase bazelConversionMode name td parallel
    exact ⟨r, f, hr, hf, hrun tctx ta w hta⟩
  · intro hen
    obtain ⟨r, f, hr, _, _, hf, _, _, hrun, _⟩ :=
      appended_BottomUp finalPhase bazelConversionMode "deps" (depsMutator methods) true
    refine ⟨r, f, ?_, hf, ?_⟩
    · rw [RegisterMutatorFunc.appended_eq]
      simpa [registerDepsMutator] using hr
    · rw [hrun ctx a w ha]
      have hmod : (bottomUpMutatorContextFactory ctx a finalPhase bazelConversionMode).Module =
          some a := ha
      simp [depsMutator, hmod, hen]

/-- C11 (amended), on the disabled `libfoo`: the wrapper of `BottomUp` runs the
stubs-versions mutator, and the built-in deps mutator leaves the world as it
is. -/
theorem wrappers_run_mutator_whatever_enabled_witness :
    (∃ r f, RegisterCall.appended false false
            (RegisterCall.BottomUp "version" stubsVersionsMutator false) = [r] ∧
        r.bottomUpMutator = some f ∧
        f (exampleBp 0 "version") disabledWorld =
          stubsVersionsMutator
            (bottomUpMutatorContextFactory (exampleBp 0 "version") 0 false false)
            disabledWorld) ∧
      ∃ r f, RegisterMutatorFunc.appended false false (registerDepsMutator exampleHooks) = [r] ∧
        r.bottomUpMutator = some f ∧
        f (exampleBp 0 "version") disabledWorld = (disabledWorld, Result.ok ()) :=
  have h := wrappers_run_mutator_whatever_enabled exampleHooks false false "version"
    stubsVersionsMutator renameMutator false (exampleBp 0 "version")
    (exampleTopDownBp 0 "rename") 0 0 rfl rfl disabledWorld
  ⟨h.1, h.2.2 rfl⟩

/-- C12: for an edge whose source module (seen by the outgoing context) and
whose target module (seen by the incoming context) are android modules, the
wrapper's incoming transition applied to the wrapper's outgoing transition is
the user's incoming transition applied to the user's outgoing transition; each
wrapper step passes the variation string to the user's step and returns its
answer unchanged.  This holds for the wrapper that `Transition` registers for
the user's mutator `m`. -/
theorem transition_wrappers_compose (x : registerMutatorsContext) (name : String)
    (m : TransitionMutator) (octx : blueprint.OutgoingTransitionContext)
    (ictx : blueprint.IncomingTransitionContext) (sourceVariation : String) (w : World)
    (ma mb : Module) (hA : asModule octx.Module = some ma)
    (hB : asModule ictx.Module = some mb) :
    ∃ atm, ((x.Transition name m).mutators.getLast?.bind mutator.transitionMutator) = some atm ∧
      atm.mutator = m ∧
      atm.IncomingTransition ictx (atm.OutgoingTransition octx sourceVariation w) w =
        m.IncomingTransition { bp := ictx }
          (m.OutgoingTransition { bp := octx } sourceVariation w) w ∧
      atm.OutgoingTransition octx sourceVariation w =
        m.OutgoingTransition { bp := octx } sourceVariation w ∧
      ∀ incomingVariation, atm.IncomingTransition ictx incomingVariation w =
        m.IncomingTransition { bp := ictx } incomingVariation w := by
  refine ⟨{ finalPhase := x.finalPhase, bazelConversionMode := x.bazelConversionMode,
            mutator := m }, ?_, rfl, ?_, ?_, ?_⟩
  · simp [registerMutatorsContext.Transition]
  · simp [androidTransitionMutator.IncomingTransition,
      androidTransitionMutator.OutgoingTransition, hA, hB]
  · simp [androidTransitionMutator.OutgoingTransition, hA]
  · intro v
    simp [androidTransitionMutator.IncomingTransition, hB]

/-- C12, at scenario S2: module A (address 0) in variation "d1" depends on
module B (address 1); the outgoing transition asks for "d2", the incoming
transition accepts it, and the wrappers give "d2". -/
theorem transition_wrappers_compose_witness :
    ∃ atm, (((registerMutatorsContext.Transition {} "axis" exampleTransition).mutators.getLast?.bind
          mutator.transitionMutator) = some atm) ∧
      atm.IncomingTransition { Module := blueprint.Module.android 1, Config := "" }
          (atm.OutgoingTransition { Module := blueprint.Module.android 0, DepTag := "shared" }
            "d1" exampleWorld)
          exampleWorld = "d2" := by
  obtain ⟨atm, h1, _, h3, _⟩ := transition_wrappers_compose {} "axis" exampleTransition
    { Module := blueprint.Module.android 0, DepTag := "shared" }
    { Module := blueprint.Module.android 1, Config := "" } "d1" exampleWorld 0 1 rfl rfl
  exact ⟨atm, h1, h3.trans rfl⟩

/-- C13: each of `PreArchMutators`, `PreDepsMutators`, `PostDepsMutators` and
`FinalDepsMutators` puts `f` at the end of its own list, after the earlier
elements, which stay in place, and leaves the other lists as they are. -/
theorem phase_registration_appends_to_own_list (f : RegisterMutatorFunc) (g : PhaseLists) :
    ((PreArchMutators f g).preArch = g.preArch ++ [f] ∧
        (PreArchMutators f g).preArch.take g.preArch.length = g.preArch ∧
        (PreArchMutators f g).preDeps = g.preDeps ∧
        (PreArchMutators f g).postDeps = g.postDeps ∧
        (PreArchMutators f g).finalDeps = g.finalDeps) ∧
      ((PreDepsMutators f g).preDeps = g.preDeps ++ [f] ∧
        (PreDepsMutators f g).preDeps.take g.preDeps.length = g.preDeps ∧
        (PreDepsMutators f g).preArch = g.preArch ∧
        (PreDepsMutators f g).postDeps = g.postDeps ∧
        (PreDepsMutators f g).finalDeps = g.finalDeps) ∧
      ((PostDepsMutators f g).postDeps = g.postDeps ++ [f] ∧
        (PostDepsMutators f g).postDeps.take g.postDeps.length = g.postDeps ∧
        (PostDepsMutators f g).preArch = g.preArch ∧
        (PostDepsMutators f g).preDeps = g.preDeps ∧
        (PostDepsMutators f g).finalDeps = g.finalDeps) ∧
      ((FinalDepsMutators f g).finalDeps = g.finalDeps ++ [f] ∧
        (FinalDepsMutators f g).finalDeps.take g.finalDeps.length = g.finalDeps ∧
        (FinalDepsMutators f g).preArch = g.preArch ∧
        (FinalDepsMutators f g).preDeps = g.preDeps ∧
        (FinalDepsMutators f g).postDeps = g.postDeps) := by
  simp [PreArchMutators, PreDepsMutators, PostDepsMutators, FinalDepsMutators]

/-- C14: on the top-down context `t` and on the bottom-up context `b`, with an
allocated current module, `Rename(name)` returns normally; it adds exactly one
call `Rename name` to the calls forwarded to blueprint; the current module,
taken as blueprint's rename left it, gets `DebugName = name` and keeps its
`DebugMutators`, `DebugVariations`, conversion-info list and enabled bit; and
every other address `q` holds what blueprint's rename left there. -/
theorem rename_forwards_and_sets_debug_name (t : topDownMutatorContext)
    (b : bottomUpMutatorContext) (name : String) (w : World) (m mb : Module)
    (base baseb : ModuleBase) (hm : t.Module = some m) (hmb : b.Module = some mb)
    (hbase : (t.bp.RenameImpl name w.modules)[m]? = some base)
    (hbaseb : (b.bp.RenameImpl name w.modules)[mb]? = some baseb)
    (q qb : blueprint.Ptr) (hq : q ≠ m) (hqb : qb ≠ mb) :
    ((t.Rename name w).2 = Result.ok () ∧
        (t.Rename name w).1.calls = w.calls ++ [blueprint.Call.Rename name] ∧
        (∃ base1, (t.Rename name w).1.modules[m]? = some base1 ∧
          base1.commonProperties.DebugName = name ∧
          base1.commonProperties.DebugMutators = base.commonProperties.DebugMutators ∧
          base1.commonProperties.DebugVariations = base.commonProperties.DebugVariations ∧
          base1.commonProperties.Bp2buildInfo = base.commonProperties.Bp2buildInfo ∧
          base1.Enabled = base.Enabled) ∧
        (t.Rename name w).1.modules[q]? = (t.bp.RenameImpl name w.modules)[q]?) ∧
      ((b.Rename name w).2 = Result.ok () ∧
        (b.Rename name w).1.calls = w.calls ++ [blueprint.Call.Rename name] ∧
        (∃ base1, (b.Rename name w).1.modules[mb]? = some base1 ∧
          base1.commonProperties.DebugName = name ∧
          base1.commonProperties.DebugMutators = baseb.commonProperties.DebugMutators ∧
          base1.commonProperties.DebugVariations = baseb.commonProperties.DebugVariations ∧
          base1.commonProperties.Bp2buildInfo = baseb.commonProperties.Bp2buildInfo ∧
          base1.Enabled = baseb.Enabled) ∧
        (b.Rename name w).1.modules[qb]? = (b.bp.RenameImpl name w.modules)[qb]?) := by
  have hlt : m < (t.bp.RenameImpl name w.modules).length :=
    (List.getElem?_eq_some.mp hbase).1
  have hltb : mb < (b.bp.RenameImpl name w.modules).length :=
    (List.getElem?_eq_some.mp hbaseb).1
  refine ⟨⟨?_, ?_, ⟨base.setDebugName name, ?_, rfl, rfl, rfl, rfl, rfl⟩, ?_⟩,
    ⟨?_, ?_, ⟨baseb.setDebugName name, ?_, rfl, rfl, rfl, rfl, rfl⟩, ?_⟩⟩
  · simp [topDownMutatorContext.Rename, hm, blueprint.TopDownMutatorContext.Rename, hbase]
  · simp [topDownMutatorContext.Rename, hm, blueprint.TopDownMutatorContext.Rename, hbase]
  · simp [topDownMutatorContext.Rename, hm, blueprint.TopDownMutatorContext.Rename, hbase,
      List.getElem?_set_self hlt]
  · simp [topDownMutatorContext.Rename, hm, blueprint.TopDownMutatorContext.Rename, hbase,
      List.getElem?_set_ne (Ne.symm hq)]
  · simp [bottomUpMutatorContext.Rename, hmb, blueprint.BottomUpMutatorContext.Rename, hbaseb]
  · simp [bottomUpMutatorContext.Rename, hmb, blueprint.BottomUpMutatorContext.Rename, hbaseb]
  · simp [bottomUpMutatorContext.Rename, hmb, blueprint.BottomUpMutatorContext.Rename, hbaseb,
      List.getElem?_set_self hltb]
  · simp [bottomUpMutatorContext.Rename, hmb, blueprint.BottomUpMutatorContext.Rename, hbaseb,
      List.getElem?_set_ne (Ne.symm hqb)]

/-- C14, on `libfoo`: renaming it to "libfoo_renamed" from either context logs
that one call and gives the world in which only its `DebugName` changed. -/
theorem rename_forwards_and_sets_debug_name_witness :
    exampleTopDownCtx.Rename "libfoo_renamed" exampleWorld =
        ({ modules :=
            [{ commonProperties :=
                { DebugName := "libfoo_renamed", DebugMutators := ["link"],
                  DebugVariations := ["shared"] } }]
           calls := [blueprint.Call.Rename "libfoo_renamed"] },
          Result.ok ()) ∧
      ((exampleCtx false).Rename "libfoo_renamed" exampleWorld).1.calls =
        exampleWorld.calls ++ [blueprint.Call.Rename "libfoo_renamed"] := by
  have h := rename_forwards_and_sets_debug_name exampleTopDownCtx (exampleCtx false)
    "libfoo_renamed" exampleWorld 0 0
    { commonProperties :=
        { DebugName := "libfoo", DebugMutators := ["link"], DebugVariations := ["shared"] } }
    { commonProperties :=
        { DebugName := "libfoo", DebugMutators := ["link"], DebugVariations := ["shared"] } }
    rfl rfl rfl rfl 1 1 (by decide) (by decide)
  exact ⟨by decide, h.2.2.1⟩

/-- C15, refuted as stated: with a helper that adds to the data of the common
attributes it is called on, the descriptor recorded on `libfoo` holds the
common attributes as the helper left them, not the argument. -/
theorem createBazelTargetModule_commonAttrs_not_the_argument :
    (exampleTopDownCtx.CreateBazelTargetModule appendingFill "cc_library" "name = libfoo"
          "srcs = foo.c" exampleWorld).1.modules.map
        (fun m => m.commonProperties.Bp2buildInfo.map bp2buildInfo.CommonAttrs) =
        [["name = libfoo, data = libbar"]] ∧
      "name = libfoo, data = libbar" ≠ "name = libfoo" := by
  decide

/-- C15 (amended): `CreateBazelTargetModule` is
`CreateBazelTargetModuleWithRestrictions` called with the empty
`BoolAttribute`, for every helper, context, argument and world.  Let the helper
`fillCommonBp2BuildModuleAttrs`, called on the common attributes, return
normally, leaving the world `w1`, the common attributes `commonAttrs1` and the
constraint attributes, and let the current module `mod` be allocated in `w1`.
Then `CreateBazelTargetModuleWithRestrictions` returns normally, and what it
does after the helper is to add one descriptor at the end of the
conversion-info list of `mod`: `Dir` is the directory of `mod`, `BazelProps`
and `Attrs` are the arguments, `CommonAttrs` is `commonAttrs1` and
`ConstraintAttrs` is the helper's result.  No module is allocated, no call
goes to blueprint and every other address `q` holds what the helper left. -/
theorem createBazelTargetModule_records_one_descriptor (fill : FillCommonBp2BuildModuleAttrs)
    (t : topDownMutatorContext) (bazelProps commonAttrs attrs : String)
    (enabledProperty : bazel.BoolAttribute) (w w1 : World)
    (commonAttrs1 constraintAttributes : String) (mod : Module) (base : ModuleBase)
    (hfill : fill commonAttrs t enabledProperty w =
      (w1, Result.ok (commonAttrs1, constraintAttributes)))
    (hmod : t.Module = some mod) (hbase : w1.modules[mod]? = some base)
    (q : blueprint.Ptr) (hq : q ≠ mod) :
    t.CreateBazelTargetModule fill bazelProps commonAttrs attrs =
        t.CreateBazelTargetModuleWithRestrictions fill bazelProps commonAttrs attrs {} ∧
      (t.CreateBazelTargetModuleWithRestrictions fill bazelProps commonAttrs attrs
          enabledProperty w).2 = Result.ok () ∧
      (∃ base1,
        (t.CreateBazelTargetModuleWithRestrictions fill bazelProps commonAttrs attrs
            enabledProperty w).1.modules[mod]? = some base1 ∧
        base1.commonProperties.Bp2buildInfo =
          base.commonProperties.Bp2buildInfo ++
            [{ Dir := t.baseModuleContext.bp.OtherModuleDir (blueprint.Module.android mod)
               BazelProps := bazelProps
               CommonAttrs := commonAttrs1
               ConstraintAttrs := constraintAttributes
               Attrs := attrs }] ∧
        base1.commonProperties.DebugName = base.commonProperties.DebugName ∧
        base1.commonProperties.DebugMutators = base.commonProperties.DebugMutators ∧
        base1.commonProperties.DebugVariations = base.commonProperties.DebugVariations ∧
        base1.Enabled = base.Enabled) ∧
      (t.CreateBazelTargetModuleWithRestrictions fill bazelProps commonAttrs attrs
          enabledProperty w).1.modules.length = w1.modules.length ∧
      (t.CreateBazelTargetModuleWithRestrictions fill bazelProps commonAttrs attrs
          enabledProperty w).1.calls = w1.calls ∧
      (t.CreateBazelTargetModuleWithRestrictions fill bazelProps commonAttrs attrs
          enabledProperty w).1.modules[q]? = w1.modules[q]? := by
  have hlt : mod < w1.modules.length := (List.getElem?_eq_some.mp hbase).1
  refine ⟨rfl, ?_, ⟨base.addBp2buildInfo
      { Dir := t.baseModuleContext.bp.OtherModuleDir (blueprint.Module.android mod)
        BazelProps := bazelProps
        CommonAttrs := commonAttrs1
        ConstraintAttrs := constraintAttributes
        Attrs := attrs }, ?_, rfl, rfl, rfl, rfl, rfl⟩, ?_, ?_, ?_⟩
  · simp [topDownMutatorContext.CreateBazelTargetModuleWithRestrictions,
      topDownMutatorContext.createBazelTargetModule, hfill, hmod, hbase]
  · simp [topDownMutatorContext.CreateBazelTargetModuleWithRestrictions,
      topDownMutatorContext.createBazelTargetModule, hfill, hmod, hbase,
      List.getElem?_set_self hlt, topDownMutatorContext.OtherModuleDir]
  · simp [topDownMutatorContext.CreateBazelTargetModuleWithRestrictions,
      topDownMutatorContext.createBazelTargetModule, hfill, hmod, hbase]
  · simp [topDownMutatorContext.CreateBazelTargetModuleWithRestrictions,
      topDownMutatorContext.createBazelTargetModule, hfill, hmod, hbase]
  · simp [topDownMutatorContext.CreateBazelTargetModuleWithRestrictions,
      topDownMutatorContext.createBazelTargetModule, hfill, hmod, hbase,
      List.getElem?_set_ne (Ne.symm hq)]

/-- C15 (amended), on `libfoo` in directory "libs/foo": converting it to a
`cc_library` target records one descriptor on `libfoo` itself, holding the
common attributes as the helper left them, by either entry point. -/
theorem createBazelTargetModule_records_one_descriptor_witness :
    exampleTopDownCtx.CreateBazelTargetModuleWithRestrictions appendingFill "cc_library"
          "name = libfoo" "srcs = foo.c" {} exampleWorld =
        ({ modules :=
            [{ commonProperties :=
                { DebugName := "libfoo", DebugMutators := ["link"],
                  DebugVariations := ["shared"],
                  Bp2buildInfo :=
                    [{ Dir := "libs/foo", BazelProps := "cc_library",
                       CommonAttrs := "name = libfoo, data = libbar",
                       ConstraintAttrs := "target_compatible_with = android",
                       Attrs := "srcs = foo.c" }] } }]
           calls := [] },
          Result.ok ()) ∧
      exampleTopDownCtx.CreateBazelTargetModule appendingFill "cc_library" "name = libfoo"
          "srcs = foo.c" =
        exampleTopDownCtx.CreateBazelTargetModuleWithRestrictions appendingFill "cc_library"
          "name = libfoo" "srcs = foo.c" {} := by
  have h := createBazelTargetModule_records_one_descriptor appendingFill exampleTopDownCtx
    "cc_library" "name = libfoo" "srcs = foo.c" {} exampleWorld exampleWorld
    "name = libfoo, data = libbar" "target_compatible_with = android" 0
    { commonProperties :=
        { DebugName := "libfoo", DebugMutators := ["link"], DebugVariations := ["shared"] } }
    rfl rfl rfl 1 (by decide)
  exact ⟨by decide, h.1⟩

/-- C17: whatever calls of `PreArchMutators`, `PreDepsMutators`,
`PostDepsMutators` and `FinalDepsMutators` were made on the initial lists, the
globally collated list is: the records of the initial pre-arch callbacks and of
those added by `PreArchMutators`; then the three records of
`registerArchMutator`, named "os", "image", "arch" in this order, each bottom-up
and parallel; then the records of the callbacks added by `PreDepsMutators`;
then the built-in record "deps"; then the post-deps and final-deps records. -/
theorem arch_cascade_between_preArch_and_preDeps (ext : ExternalCallbacks)
    (arch : ArchMutators) (methods : ModuleMethods) (regs : List PhaseRegistration) :
    collateGloballyRegisteredMutators methods
          (regs.foldl PhaseRegistration.run (initialPhaseLists ext arch methods)) =
        ((initialPhaseLists ext arch methods).preArch ++
              PhaseRegistration.preArchOf regs).flatMap
            (RegisterMutatorFunc.appended false false) ++
          RegisterMutatorFunc.appended false false (registerArchMutator arch) ++
          (PhaseRegistration.preDepsOf regs).flatMap
            (RegisterMutatorFunc.appended false false) ++
          RegisterMutatorFunc.appended false false (registerDepsMutator methods) ++
          ((initialPhaseLists ext arch methods).postDeps ++
              PhaseRegistration.postDepsOf regs).flatMap
            (RegisterMutatorFunc.appended false false) ++
          (PhaseRegistration.finalDepsOf regs).flatMap
            (RegisterMutatorFunc.appended true false) ∧
      (RegisterMutatorFunc.appended false false (registerArchMutator arch)).map mutator.shape =
        [("os", true, true, false, false), ("image", true, true, false, false),
          ("arch", true, true, false, false)] ∧
      (RegisterMutatorFunc.appended false false (registerDepsMutator methods)).map
          mutator.shape = [("deps", true, true, false, false)] := by
  refine ⟨?_, rfl, rfl⟩
  have h := PhaseRegistration.foldl_run regs (initialPhaseLists ext arch methods)
  rw [collateGloballyRegisteredMutators, collateRegisteredMutators_eq, h.1, h.2.1, h.2.2.1,
    h.2.2.2]
  simp [initialPhaseLists, List.flatMap_append, List.flatMap_cons]

/-- C18: outside the final phase, let blueprint return one distinct android
module per variation name, each holding the parent's `DebugMutators` and
`DebugVariations` (the parent is the current module `m` as it was before the
call).  Then the i-th sibling leaves `CreateVariations` (resp.
`CreateLocalVariations`) with `DebugMutators` equal to the parent's followed by
the current mutator name, the same list for every sibling, and with
`DebugVariations` equal to the parent's followed by the i-th variation name, so
that siblings differ in the last entry only; the two lists have equal length
on the sibling when they had on the parent. -/
theorem sibling_variants_share_debug_prefix (b : bottomUpMutatorContext)
    (variations : List String) (w : World) (ps psLocal : List blueprint.Ptr)
    (m : Module) (parent : ModuleBase)
    (hfinal : b.finalPhase = false) (_hm : b.Module = some m)
    (_hparent : w.modules[m]? = some parent)
    (hk : (b.bp.CreateVariationsImpl variations w.modules).2 =
      ps.map blueprint.Module.android)
    (hkl : (b.bp.CreateLocalVariationsImpl variations w.modules).2 =
      psLocal.map blueprint.Module.android)
    (hlen : ps.length = variations.length) (hlenl : psLocal.length = variations.length)
    (hnd : ps.Nodup) (hndl : psLocal.Nodup)
    (hclone : ∀ p ∈ ps, ∃ base,
      (b.bp.CreateVariationsImpl variations w.modules).1[p]? = some base ∧
      base.commonProperties.DebugMutators = parent.commonProperties.DebugMutators ∧
      base.commonProperties.DebugVariations = parent.commonProperties.DebugVariations)
    (hclonel : ∀ p ∈ psLocal, ∃ base,
      (b.bp.CreateLocalVariationsImpl variations w.modules).1[p]? = some base ∧
      base.commonProperties.DebugMutators = parent.commonProperties.DebugMutators ∧
      base.commonProperties.DebugVariations = parent.commonProperties.DebugVariations)
    (i : Nat) (v : String) (p pl : blueprint.Ptr) (hv : variations[i]? = some v)
    (hp : ps[i]? = some p) (hpl : psLocal[i]? = some pl) :
    (∃ base1, (b.CreateVariations variations w).1.modules[p]? = some base1 ∧
        base1.commonProperties.DebugMutators =
          parent.commonProperties.DebugMutators ++ [b.MutatorName] ∧
        base1.commonProperties.DebugVariations =
          parent.commonProperties.DebugVariations ++ [v] ∧
        (parent.commonProperties.DebugMutators.length =
            parent.commonProperties.DebugVariations.length →
          base1.commonProperties.DebugMutators.length =
            base1.commonProperties.DebugVariations.length)) ∧
      (∃ base1, (b.CreateLocalVariations variations w).1.modules[pl]? = some base1 ∧
        base1.commonProperties.DebugMutators =
          parent.commonProperties.DebugMutators ++ [b.MutatorName] ∧
        base1.commonProperties.DebugVariations =
          parent.commonProperties.DebugVariations ++ [v] ∧
        (parent.commonProperties.DebugMutators.length =
            parent.commonProperties.DebugVariations.length →
          base1.commonProperties.DebugMutators.length =
            base1.commonProperties.DebugVariations.length)) := by
  have hvalid : ∀ q ∈ ps, q < (b.bp.CreateVariationsImpl variations w.modules).1.length := by
    intro q hq
    obtain ⟨base, hb, _⟩ := hclone q hq
    exact (List.getElem?_eq_some.mp hb).1
  have hvalidl : ∀ q ∈ psLocal,
      q < (b.bp.CreateLocalVariationsImpl variations w.modules).1.length := by
    intro q hq
    obtain ⟨base, hb, _⟩ := hclonel q hq
    exact (List.getElem?_eq_some.mp hb).1
  obtain ⟨heap1, hrun, _, _, hupd⟩ := variationsLoop_all_android b.MutatorName variations
    (b.bp.CreateVariationsImpl variations w.modules).1 ps hlen hvalid
  obtain ⟨heap2, hrunl, _, _, hupdl⟩ := variationsLoop_all_android b.MutatorName
    variations (b.bp.CreateLocalVariationsImpl variations w.modules).1 psLocal hlenl hvalidl
  have hafter : (b.CreateVariations variations w).1.modules = heap1 := by
    simp only [bottomUpMutatorContext.CreateVariations, hfinal,
      blueprint.BottomUpMutatorContext.CreateVariations, hk]
    rw [hrun]
    rfl
  have hafterl : (b.CreateLocalVariations variations w).1.modules = heap2 := by
    simp only [bottomUpMutatorContext.CreateLocalVariations, hfinal,
      blueprint.BottomUpMutatorContext.CreateLocalVariations, hkl]
    rw [hrunl]
    rfl
  obtain ⟨base, hb, hbm, hbv⟩ := hclone p (List.getElem?_mem hp)
  obtain ⟨basel, hbl, hbml, hbvl⟩ := hclonel pl (List.getElem?_mem hpl)
  have hf := appendDebug_fields base b.MutatorName v
  have hfl := appendDebug_fields basel b.MutatorName v
  refine ⟨⟨base.appendDebug b.MutatorName v, ?_, ?_, ?_, ?_⟩,
    ⟨basel.appendDebug b.MutatorName v, ?_, ?_, ?_, ?_⟩⟩
  · rw [hafter, hupd hnd i p v hp hv, hb]
    rfl
  · rw [hf.1, hbm]
  · rw [hf.2.1, hbv]
  · intro heq
    rw [hf.1, hf.2.1, hbm, hbv, List.length_append, List.length_append, heq]
    rfl
  · rw [hafterl, hupdl hndl i pl v hpl hv, hbl]
    rfl
  · rw [hfl.1, hbml]
  · rw [hfl.2.1, hbvl]
  · intro heq
    rw [hfl.1, hfl.2.1, hbml, hbvl, List.length_append, List.length_append, heq]
    rfl

/-- C18, on `libfoo` (breadcrumb "link"/"shared"): the third variant, at
address 3, carries "link", "version" and "shared", "current", two lists of the
same length. -/
theorem sibling_variants_share_debug_prefix_witness :
    ∃ base1,
      ((exampleCtx false).CreateVariations ["29", "R", "current"] exampleWorld).1.modules[3]? =
          some base1 ∧
        base1.commonProperties.DebugMutators = ["link", "version"] ∧
        base1.commonProperties.DebugVariations = ["shared", "current"] ∧
        base1.commonProperties.DebugMutators.length =
          base1.commonProperties.DebugVariations.length := by
  have h := sibling_variants_share_debug_prefix (exampleCtx false) ["29", "R", "current"]
    exampleWorld [1, 2, 3] [1, 2, 3] 0
    { commonProperties :=
        { DebugName := "libfoo", DebugMutators := ["link"], DebugVariations := ["shared"] } }
    rfl rfl rfl rfl rfl rfl rfl (by decide) (by decide) (by decide) (by decide) 2 "current" 3 3
    rfl rfl rfl
  obtain ⟨base1, h1, h2, h3, h4⟩ := h.1
  exact ⟨base1, h1, h2, h3, h4 rfl⟩

/-- C19, the code at the failing input: `bottomUpMutatorContextFactory` called
with `bazelConversionMode = true` returns the context it returns for `false`,
whose flag is false.  So on a registration context in conversion mode the
user's bottom-up mutator and the `Mutate` step of the user's transition mutator
see "normal" on `libfoo`, where the user's top-down mutator and the `Split`
step see "conversion". -/
theorem bottomUp_context_drops_conversion_mode (ctx : blueprint.BottomUpMutatorContext)
    (a : Module) (finalPhase : Bool) :
    (bottomUpMutatorContextFactory ctx a finalPhase true).baseModuleContext.bazelConversionMode =
        false ∧
      bottomUpMutatorContextFactory ctx a finalPhase true =
        bottomUpMutatorContextFactory ctx a finalPhase false ∧
      ((RegisterCall.appended false true
            (RegisterCall.BottomUp "probe" conversionProbe false)).head?.bind
          mutator.bottomUpMutator).map
          (fun f => (f (exampleBp 0 "probe") exampleWorld).1.calls) =
        some [blueprint.Call.Rename "normal"] ∧
      ((RegisterCall.appended false true
            (RegisterCall.TopDown "probe" conversionProbeTopDown false)).head?.bind
          mutator.topDownMutator).map
          (fun f => (f (exampleTopDownBp 0 "probe") exampleWorld).1.calls) =
        some [blueprint.Call.Rename "conversion"] ∧
      ((RegisterCall.appended false true
            (RegisterCall.Transition "probe" conversionProbeTransition)).head?.bind
          mutator.transitionMutator).map
          (fun atm =>
            ((atm.Mutate (exampleBp 0 "probe") "v" exampleWorld).1.calls,
              atm.Split (exampleBp 0 "probe").toBaseModuleContext exampleWorld)) =
        some ([blueprint.Call.Rename "normal"], ["conversion"]) := by
  refine ⟨rfl, rfl, ?_, ?_, ?_⟩ <;> decide

/-- C20: take any registration call whose function argument is not nil, made
on a context with any flags, and the record `r` it appends (after `Parallel()`
if the call goes on to it).  Exactly one of the three function fields of `r`
is set; `r` is parallel only if its transition field is unset; and
`r.register` returns normally on every blueprint context, having made the
registration call that matches the set field, with the name of `r`, followed
by `Parallel()` on the handle of that very registration when `r` is parallel. -/
theorem registered_record_has_one_function (finalPhase bazelConversionMode : Bool)
    (c : RegisterCall)
    (hnonnil : ∀ name parallel, c ≠ RegisterCall.BottomUpBlueprint name none parallel)
    (ctx : Context) :
    ∃ r, RegisterCall.appended finalPhase bazelConversionMode c = [r] ∧
      ((r.bottomUpMutator.isSome ∧ r.topDownMutator = none ∧ r.transitionMutator = none) ∨
        (r.bottomUpMutator = none ∧ r.topDownMutator.isSome ∧ r.transitionMutator = none) ∨
        (r.bottomUpMutator = none ∧ r.topDownMutator = none ∧ r.transitionMutator.isSome)) ∧
      (r.parallel = true → r.transitionMutator = none) ∧
      (r.register ctx).2 = Result.ok () ∧
      (∀ f, r.bottomUpMutator = some f →
        (r.register ctx).1 =
          ctx ++ [blueprint.RegistrationCall.RegisterBottomUpMutator r.name f] ++
            (if r.parallel then [blueprint.RegistrationCall.Parallel ctx.length] else [])) ∧
      (∀ f, r.topDownMutator = some f →
        (r.register ctx).1 =
          ctx ++ [blueprint.RegistrationCall.RegisterTopDownMutator r.name f] ++
            (if r.parallel then [blueprint.RegistrationCall.Parallel ctx.length] else [])) ∧
      (∀ t, r.transitionMutator = some t →
        (r.register ctx).1 =
          ctx ++ [blueprint.RegistrationCall.RegisterTransitionMutator r.name t]) := by
  cases c with
  | TopDown name m parallel =>
    cases parallel <;>
      exact ⟨_, rfl, Or.inr (Or.inl ⟨rfl, rfl, rfl⟩), fun _ => rfl, rfl,
        fun f hf => by simp [mutator.Parallel] at hf,
        fun f hf => by cases hf; simp [mutator.register, mutator.Parallel],
        fun t ht => by simp [mutator.Parallel] at ht⟩
  | BottomUp name m parallel =>
    cases parallel <;>
      exact ⟨_, rfl, Or.inl ⟨rfl, rfl, rfl⟩, fun _ => rfl, rfl,
        fun f hf => by cases hf; simp [mutator.register, mutator.Parallel],
        fun f hf => by simp [mutator.Parallel] at hf,
        fun t ht => by simp [mutator.Parallel] at ht⟩
  | BottomUpBlueprint name m parallel =>
    cases m with
    | none => exact absurd rfl (hnonnil name parallel)
    | some g =>
      cases parallel <;>
        exact ⟨_, rfl, Or.inl ⟨rfl, rfl, rfl⟩, fun _ => rfl, rfl,
          fun f hf => by cases hf; simp [mutator.register, mutator.Parallel],
          fun f hf => by simp [mutator.Parallel] at hf,
          fun t ht => by simp [mutator.Parallel] at ht⟩
  | Transition name m =>
    exact ⟨_, rfl, Or.inr (Or.inr ⟨rfl, rfl, rfl⟩), fun h => by simp at h, rfl,
      fun f hf => by simp at hf,
      fun f hf => by simp at hf,
      fun t ht => by cases ht; simp [mutator.register]⟩

/-- C20, at the built-in registration `BottomUp("deps", depsMutator).Parallel()`:
its record registers with blueprint without a panic, as a bottom-up mutator
named "deps" followed by `Parallel()` on the handle just returned. -/
theorem registered_record_has_one_function_witness :
    ∃ r, RegisterCall.appended false false
          (RegisterCall.BottomUp "deps" (depsMutator exampleMethods) true) = [r] ∧
      r.shape = ("deps", true, true, false, false) ∧
      (r.register []).2 = Result.ok () ∧
      (r.register []).1.length = 2 := by
  obtain ⟨r, hr, _, _, hreg, hbu, _, _⟩ := registered_record_has_one_function false false
    (RegisterCall.BottomUp "deps" (depsMutator exampleMethods) true)
    (fun _ _ h => by cases h) []
  have hr2 := hr
  simp only [RegisterCall.appended, RegisterCall.run, registerMutatorsContext.BottomUp,
    MutatorHandle.Parallel, if_true, List.length_nil, List.nil_append] at hr2
  have hrr := (List.cons.inj hr2).1
  subst hrr
  exact ⟨_, hr, rfl, hreg, rfl⟩

/-- C21: outside the final phase, let blueprint return android modules only,
all allocated (`ps`, resp. `psLocal`, are their addresses).  Then
`CreateVariations` (resp. `CreateLocalVariations`) panics on an index out of
range exactly when blueprint returned fewer modules than there are variation
names; otherwise it returns normally a list of the length of blueprint's
result whose first slots, one per name, hold blueprint's modules in order and
whose remaining slots are nil.  With exactly one module per name every slot is
filled. -/
theorem createVariations_indexing (b : bottomUpMutatorContext)
    (variations : List String) (w : World) (ps psLocal : List blueprint.Ptr)
    (hfinal : b.finalPhase = false)
    (hk : (b.bp.CreateVariationsImpl variations w.modules).2 =
      ps.map blueprint.Module.android)
    (hkl : (b.bp.CreateLocalVariationsImpl variations w.modules).2 =
      psLocal.map blueprint.Module.android)
    (hvalid : ∀ p ∈ ps, p < (b.bp.CreateVariationsImpl variations w.modules).1.length)
    (hvalidl : ∀ p ∈ psLocal,
      p < (b.bp.CreateLocalVariationsImpl variations w.modules).1.length) :
    ((b.CreateVariations variations w).2 =
          (if ps.length < variations.length then Result.panic "index out of range"
          else Result.ok ((ps.take variations.length).map some ++
            List.replicate (ps.length - variations.length) none)) ∧
        ((b.CreateVariations variations w).2 = Result.panic "index out of range" ↔
          ps.length < variations.length) ∧
        (ps.length = variations.length →
          (b.CreateVariations variations w).2 = Result.ok (ps.map some) ∧
          ∀ slot ∈ ps.map some, slot ≠ none)) ∧
      ((b.CreateLocalVariations variations w).2 =
          (if psLocal.length < variations.length then Result.panic "index out of range"
          else Result.ok ((psLocal.take variations.length).map some ++
            List.replicate (psLocal.length - variations.length) none)) ∧
        ((b.CreateLocalVariations variations w).2 = Result.panic "index out of range" ↔
          psLocal.length < variations.length) ∧
        (psLocal.length = variations.length →
          (b.CreateLocalVariations variations w).2 = Result.ok (psLocal.map some) ∧
          ∀ slot ∈ psLocal.map some, slot ≠ none)) := by
  have h1 : (b.CreateVariations variations w).2 =
      (if ps.length < variations.length then Result.panic "index out of range"
      else Result.ok ((ps.take variations.length).map some ++
        List.replicate (ps.length - variations.length) none)) := by
    rw [← variationsLoop_result b.MutatorName variations
      (b.bp.CreateVariationsImpl variations w.modules).1 ps hvalid]
    simp only [bottomUpMutatorContext.CreateVariations, hfinal,
      blueprint.BottomUpMutatorContext.CreateVariations, hk]
    rfl
  have h2 : (b.CreateLocalVariations variations w).2 =
      (if psLocal.length < variations.length then Result.panic "index out of range"
      else Result.ok ((psLocal.take variations.length).map some ++
        List.replicate (psLocal.length - variations.length) none)) := by
    rw [← variationsLoop_result b.MutatorName variations
      (b.bp.CreateLocalVariationsImpl variations w.modules).1 psLocal hvalidl]
    simp only [bottomUpMutatorContext.CreateLocalVariations, hfinal,
      blueprint.BottomUpMutatorContext.CreateLocalVariations, hkl]
    rfl
  refine ⟨⟨h1, ?_, ?_⟩, ⟨h2, ?_, ?_⟩⟩
  · rw [h1]
    by_cases hs : ps.length < variations.length
    · simp [hs]
    · simp [hs]
  · intro hlen
    refine ⟨?_, ?_⟩
    · rw [h1, if_neg (by omega), hlen.symm, List.take_length, Nat.sub_self]
      simp
    · intro slot hslot
      obtain ⟨p, _, hp⟩ := List.mem_map.mp hslot
      rw [← hp]
      exact Option.some_ne_none p
  · rw [h2]
    by_cases hs : psLocal.length < variations.length
    · simp [hs]
    · simp [hs]
  · intro hlen
    refine ⟨?_, ?_⟩
    · rw [h2, if_neg (by omega), hlen.symm, List.take_length, Nat.sub_self]
      simp
    · intro slot hslot
      obtain ⟨p, _, hp⟩ := List.mem_map.mp hslot
      rw [← hp]
      exact Option.some_ne_none p

/-- C21, on `libfoo` with the names "29", "R", "current": when blueprint
returns three modules all three slots are filled, and when it returns two the
call panics on the index of the third name. -/
theorem createVariations_indexing_witness :
    ((exampleCtx false).CreateVariations ["29", "R", "current"] exampleWorld).2 =
        Result.ok [some 1, some 2, some 3] ∧
      ((bottomUpMutatorContextFactory (shortBp 0 "version") 0 false false).CreateVariations
          ["29", "R", "current"] exampleWorld).2 = Result.panic "index out of range" :=
  ⟨((createVariations_indexing (exampleCtx false) ["29", "R", "current"] exampleWorld
      [1, 2, 3] [1, 2, 3] rfl rfl rfl (by decide) (by decide)).1.2.2 rfl).1,
    (createVariations_indexing (bottomUpMutatorContextFactory (shortBp 0 "version") 0 false false)
      ["29", "R", "current"] exampleWorld [1, 2] [1, 2] rfl rfl rfl (by decide)
      (by decide)).1.2.1.mpr (by decide)⟩

/-- C22: let `other` be a blueprint module that is not an android module (nil
included) and `am` one that is.  On contexts that present `other`, whatever
the user's transition mutator is, `Split` returns `[""]`, `OutgoingTransition`
and `IncomingTransition` return `""` for every variation, and `Mutate` returns
at once with the world unchanged.  On contexts that present `am`, each step
returns what the user's step returns for the same variation: `Split` on a
module context carrying the wrapper's conversion-mode flag, the two
transitions on the wrapped contexts, `Mutate` on the bottom-up context built
with the wrapper's flags. -/
theorem transition_wrapper_steps (a : androidTransitionMutator)
    (sctx : blueprint.BaseModuleContext) (octx : blueprint.OutgoingTransitionContext)
    (ictx : blueprint.IncomingTransitionContext) (mctx : blueprint.BottomUpMutatorContext)
    (other am : blueprint.Module) (m : Module) (hother : asModule other = none)
    (ham : asModule am = some m) (variation : String) (w : World) :
    (a.Split { sctx with Module := other } w = [""] ∧
        a.OutgoingTransition { octx with Module := other } variation w = "" ∧
        a.IncomingTransition { ictx with Module := other } variation w = "" ∧
        a.Mutate { mctx with Module := other } variation w = (w, Result.ok ())) ∧
      (a.Split { sctx with Module := am } w =
          a.mutator.Split
            { bp := { sctx with Module := am }, bazelConversionMode := a.bazelConversionMode }
            w ∧
        a.OutgoingTransition { octx with Module := am } variation w =
          a.mutator.OutgoingTransition { bp := { octx with Module := am } } variation w ∧
        a.IncomingTransition { ictx with Module := am } variation w =
          a.mutator.IncomingTransition { bp := { ictx with Module := am } } variation w ∧
        a.Mutate { mctx with Module := am } variation w =
          a.mutator.Mutate
            (bottomUpMutatorContextFactory { mctx with Module := am } m a.finalPhase
              a.bazelConversionMode)
            variation w) := by
  refine ⟨⟨?_, ?_, ?_, ?_⟩, ⟨?_, ?_, ?_, ?_⟩⟩
  · simp [androidTransitionMutator.Split, hother]
  · simp [androidTransitionMutator.OutgoingTransition, hother]
  · simp [androidTransitionMutator.IncomingTransition, hother]
  · simp [androidTransitionMutator.Mutate, hother]
  · simp [androidTransitionMutator.Split, ham, baseModuleContextFactory]
  · simp [androidTransitionMutator.OutgoingTransition, ham]
  · simp [androidTransitionMutator.IncomingTransition, ham]
  · simp [androidTransitionMutator.Mutate, ham]

/-- C22, with the transition mutator of scenario S2: on a module that is not
an android module the wrapper answers `[""]` and `""`; on `libfoo` it answers
what the user's steps answer, `["d1", "d2"]` and "d2" for "d1". -/
theorem transition_wrapper_steps_witness :
    (androidTransitionMutator.Split
          { finalPhase := false, bazelConversionMode := false, mutator := exampleTransition }
          { Module := blueprint.Module.other 7 } exampleWorld = [""] ∧
        androidTransitionMutator.OutgoingTransition
          { finalPhase := false, bazelConversionMode := false, mutator := exampleTransition }
          { Module := blueprint.Module.other 7, DepTag := "shared" } "d1" exampleWorld = "") ∧
      (androidTransitionMutator.Split
          { finalPhase := false, bazelConversionMode := false, mutator := exampleTransition }
          { Module := blueprint.Module.android 0 } exampleWorld = ["d1", "d2"] ∧
        androidTransitionMutator.OutgoingTransition
          { finalPhase := false, bazelConversionMode := false, mutator := exampleTransition }
          { Module := blueprint.Module.android 0, DepTag := "shared" } "d1" exampleWorld =
          "d2") :=
  have h := transition_wrapper_steps
    { finalPhase := false, bazelConversionMode := false, mutator := exampleTransition }
    { Module := blueprint.Module.nil }
    { Module := blueprint.Module.nil, DepTag := "shared" }
    { Module := blueprint.Module.nil, Config := "" }
    (exampleBp 0 "axis") (blueprint.Module.other 7) (blueprint.Module.android 0) 0 rfl rfl
    "d1" exampleWorld
  ⟨⟨h.1.1, h.1.2.1⟩, ⟨h.2.1.trans rfl, h.2.2.1.trans rfl⟩⟩

/-- C23: let `other` be a blueprint module that is not an android module and
`am` one that is.  The function that `BottomUp` (resp. `TopDown`) puts in the
record is one call of the user's mutator, on the android context built around
the blueprint context, when the context presents `am`, and returns at once
with the world unchanged when it presents `other`.  `BottomUpBlueprint` puts
the raw function itself in the record.  In all three cases `register` hands
the function of the record to blueprint under the name of the record. -/
theorem wrappers_dispatch_on_android_modules (finalPhase bazelConversionMode : Bool)
    (name : String) (bu : BottomUpMutator) (td : TopDownMutator)
    (raw : blueprint.BottomUpMutator) (parallel : Bool)
    (bctx : blueprint.BottomUpMutatorContext) (tctx : blueprint.TopDownMutatorContext)
    (other am : blueprint.Module) (m : Module) (hother : asModule other = none)
    (ham : asModule am = some m) (w : World) (ctx : Context) :
    (∃ r f, RegisterCall.appended finalPhase bazelConversionMode
            (RegisterCall.BottomUp name bu parallel) = [r] ∧
        r.bottomUpMutator = some f ∧
        f { bctx with Module := am } w =
          bu (bottomUpMutatorContextFactory { bctx with Module := am } m finalPhase
            bazelConversionMode) w ∧
        f { bctx with Module := other } w = (w, Result.ok ()) ∧
        (r.register ctx).1 =
          ctx ++ [blueprint.RegistrationCall.RegisterBottomUpMutator r.name f] ++
            (if parallel then [blueprint.RegistrationCall.Parallel ctx.length] else [])) ∧
      (∃ r f, RegisterCall.appended finalPhase bazelConversionMode
            (RegisterCall.TopDown name td parallel) = [r] ∧
        r.topDownMutator = some f ∧
        f { tctx with Module := am } w =
          td { bp := { tctx with Module := am }
               baseModuleContext :=
                { bp := { tctx with Module := am }.toBaseModuleContext
                  bazelConversionMode := bazelConversionMode } }
            w ∧
        f { tctx with Module := other } w = (w, Result.ok ()) ∧
        (r.register ctx).1 =
          ctx ++ [blueprint.RegistrationCall.RegisterTopDownMutator r.name f] ++
            (if parallel then [blueprint.RegistrationCall.Parallel ctx.length] else [])) ∧
      (∃ r, RegisterCall.appended finalPhase bazelConversionMode
            (RegisterCall.BottomUpBlueprint name (some raw) parallel) = [r] ∧
        r.name = name ∧ r.bottomUpMutator = some raw ∧
        (r.register ctx).1 =
          ctx ++ [blueprint.RegistrationCall.RegisterBottomUpMutator name raw] ++
            (if parallel then [blueprint.RegistrationCall.Parallel ctx.length] else [])) := by
  refine ⟨?_, ?_, ?_⟩
  · obtain ⟨r, f, hr, _, hpar, hf, htd, _, hrun, hskip⟩ :=
      appended_BottomUp finalPhase bazelConversionMode name bu parallel
    refine ⟨r, f, hr, hf, hrun _ m w ham, hskip _ w hother, ?_⟩
    simp [mutator.register, hf, hpar]
    cases parallel <;> simp
  · obtain ⟨r, f, hr, _, hpar, hf, hbu, _, hrun, hskip⟩ :=
      appended_TopDown finalPhase bazelConversionMode name td parallel
    refine ⟨r, f, hr, hf, hrun _ m w ham, hskip _ w hother, ?_⟩
    simp [mutator.register, hf, hbu, hpar]
    cases parallel <;> simp
  · cases parallel
    · exact ⟨_, rfl, rfl, rfl, by simp [mutator.register]⟩
    · exact ⟨_, rfl, rfl, rfl, by simp [mutator.register, mutator.Parallel]⟩

/-- C23, with the stubs-versions mutator registered through `BottomUp`: on a
module that is not an android module the registered function leaves the world
as it is, and on `libfoo` it runs the mutator once, which sends one
`CreateVariations` call to blueprint. -/
theorem wrappers_dispatch_on_android_modules_witness :
    ∃ r f, RegisterCall.appended false false
          (RegisterCall.BottomUp "version" stubsVersionsMutator false) = [r] ∧
      r.bottomUpMutator = some f ∧
      f { exampleBp 0 "version" with Module := blueprint.Module.other 7 } exampleWorld =
        (exampleWorld, Result.ok ()) ∧
      (f { exampleBp 0 "version" with Module := blueprint.Module.android 0 }
          exampleWorld).1.calls =
        [blueprint.Call.CreateVariations ["29", "R", "current"]] := by
  obtain ⟨r, f, hr, hf, hrun, hskip, _⟩ :=
    (wrappers_dispatch_on_android_modules false false "version" stubsVersionsMutator
      renameMutator rawStubsVersionsMutator false (exampleBp 0 "version")
      (exampleTopDownBp 0 "rename") (blueprint.Module.other 7) (blueprint.Module.android 0) 0
      rfl rfl exampleWorld []).1
  refine ⟨r, f, hr, hf, hskip, ?_⟩
  rw [hrun]
  decide

end android
